import Mathlib

/-!
# Verification of the facify-back face clustering and identity-matching pipeline

This file gives a shallow embedding, in Lean 4, of the core of the
`facify-back` repository: the face clustering and identity-matching
pipeline implemented in `src/utils/face.py` and `src/utils/face_rematch.py`,
together with the extraction entry point `generate_embeddings_background`
and the retrying HTTP helper `safe_request`.

Modelling conventions:

* Python floats are modelled as exact rationals (`ℚ`).  NaN/Inf, which are
  not representable in `ℚ`, are modelled by an explicit `allFinite` flag on
  each stored vector, so that `validate_embedding` (which in the source
  rejects `None`, empty, NaN and Inf data) keeps all of its branches.
  Rational arithmetic is implemented by kernel-computable wrappers
  (`qadd`, `qsub`, `qmul`, `qdiv`), proved below to agree with the
  field operations of `ℚ`, so that concrete runs of the pipeline can be
  evaluated by `decide`.
* The similarity engine (sklearn's `cosine_similarity`, scipy's `cosine`
  distance) is a numeric library the pipeline calls; pipeline functions
  take the similarity/distance function as an explicit parameter
  `sim`/`dist`, as the spec's §4.1 presents it ("pure functions ... used by
  every other component"), so every theorem below holds for the true cosine
  in particular.  For concrete instantiations we provide `cosineSim`, an
  exact rational cosine similarity that agrees with the mathematical cosine
  whenever both vectors have rational norms (all concrete vectors in this
  file are chosen that way), and which returns 0 on zero-norm input.
* The SQL database is a record of lists of rows, one list per table; SQL
  joins are nested loops over those lists, preserving multiplicity, since
  the source's `session.exec(select(...)).all()` does not deduplicate.
* Unordered Python iteration (over `set`s / `dict`s) is modelled by
  first-occurrence order; the affected computations commute, so no claim
  depends on this choice.
* Notification dispatch (`send_notification.delay`, `sio.emit`) is a
  fire-and-forget call into an external collaborator and does not touch the
  database state; it is omitted from the state transitions.
-/

/-! ## Kernel-computable rational arithmetic -/

/-- Addition on `ℚ` through `mkRat`, so the kernel can evaluate it. -/
def qadd (a b : ℚ) : ℚ := mkRat (a.num * b.den + b.num * a.den) (a.den * b.den)

/-- Subtraction on `ℚ` through `mkRat`. -/
def qsub (a b : ℚ) : ℚ := mkRat (a.num * b.den - b.num * a.den) (a.den * b.den)

/-- Multiplication on `ℚ` through `mkRat`. -/
def qmul (a b : ℚ) : ℚ := mkRat (a.num * b.num) (a.den * b.den)

/-- Inverse on `ℚ` through `mkRat` (`0⁻¹ = 0`, as in `ℚ`). -/
def qinv (b : ℚ) : ℚ :=
  if b.num < 0 then mkRat (-(b.den : ℤ)) b.num.natAbs else mkRat (b.den : ℤ) b.num.natAbs

/-- Division on `ℚ` through `mkRat` (`x / 0 = 0`, as in `ℚ`). -/
def qdiv (a b : ℚ) : ℚ := qmul a (qinv b)

/-! ## Vectors and the similarity engine -/
/-- A stored float vector.  `entries` holds the float values as exact
rationals; `allFinite` records whether every stored float is finite
(no NaN/Inf), which is not representable inside `ℚ` itself. -/
structure Vec where
  entries : List ℚ
  allFinite : Bool := true
deriving DecidableEq, Repr

/-- `validate_embedding` from `src/utils/face.py` (lines 53-67): an
embedding is valid iff it is non-null, non-empty, and contains no
NaN/Inf values. -/
def validate_embedding (v : Vec) : Bool :=
  v.allFinite && !v.entries.isEmpty

/-- Componentwise sum of two vectors (numpy addition; all vectors the
pipeline adds have equal dimension, `List.zipWith` truncates otherwise). -/
def vadd (a b : Vec) : Vec :=
  ⟨List.zipWith qadd a.entries b.entries, a.allFinite && b.allFinite⟩

/-- Scale a vector by a rational. -/
def vscale (q : ℚ) (v : Vec) : Vec :=
  ⟨v.entries.map (qmul q), v.allFinite⟩

/-- Sum of a non-empty list of vectors (head-seeded, so that the empty
list does not collapse dimensions). -/
def vsum : List Vec → Vec
  | [] => ⟨[], true⟩
  | v :: rest => rest.foldl vadd v

/-- `numpy.mean(axis=0)`: arithmetic mean of a list of vectors. -/
def meanVec (vs : List Vec) : Vec :=
  vscale (qdiv 1 (vs.length : ℚ)) (vsum vs)

/-- Dot product of two vectors. -/
def dotQ (a b : Vec) : ℚ :=
  (List.zipWith qmul a.entries b.entries).foldl qadd 0

/-- Squared Euclidean norm. -/
def normSq (a : Vec) : ℚ := dotQ a a

/-- Floor square root of a natural number by fuelled binary search on the
interval `[lo, hi)`; `90` halving steps suffice for any input below
`2 ^ 89`.  (Structural recursion on the fuel keeps this kernel-reducible,
unlike `Nat.sqrt`.) -/
def natSqrtGo (n : Nat) : Nat → Nat → Nat → Nat
  | 0, lo, _ => lo
  | fuel + 1, lo, hi =>
    if hi ≤ lo + 1 then lo
    else
      let mid := (lo + hi) / 2
      if mid * mid ≤ n then natSqrtGo n fuel mid hi else natSqrtGo n fuel lo mid

/-- Floor square root of a natural number (kernel-reducible). -/
def natSqrtB (n : Nat) : Nat := natSqrtGo n 90 0 (n + 1)

/-- Exact rational square root: the non-negative rational `r` with
`r * r = q` when one exists, else `0`. -/
def ratSqrt (q : ℚ) : ℚ :=
  let n := natSqrtB q.num.toNat
  let d := natSqrtB q.den
  if 0 ≤ q.num && n * n == q.num.toNat && d * d == q.den then mkRat (n : ℤ) d
  else 0

/-- Cosine similarity.  Exact (and equal to the mathematical cosine) on
every pair of vectors whose norms are rational — true of every concrete
vector in this development — and `0` when either vector has zero norm,
matching sklearn's zero-norm handling (spec §4.1). -/
def cosineSim (a b : Vec) : ℚ :=
  let na := ratSqrt (normSq a)
  let nb := ratSqrt (normSq b)
  if na = 0 ∨ nb = 0 then 0 else qdiv (dotQ a b) (qmul na nb)

/-- Cosine distance (scipy's `cosine`): `1 - cosineSim`. -/
def cosineDist (a b : Vec) : ℚ := qsub 1 (cosineSim a b)

/-! ## Data model (`src/models/core.py`, `media.py`, `face.py`, `events.py`)

Rows carry exactly the columns the pipeline reads or writes; ids are `Nat`.
-/
/-- `ContentOwnerType` from `src/models/core.py`. -/
inductive ContentOwnerType
  | user
  | event
deriving DecidableEq, Repr

/-- `MediaUsageType` from `src/models/core.py`. -/
inductive MediaUsageType
  | profile_picture
  | profile_picture_angle
  | profile_picture_archived
  | cover_photo
  | gallery
deriving DecidableEq, Repr

/-- The three profile/enrollment usage types that
`update_cluster_centroid` and `cluster_unclustered_faces_in_event`
exclude and that `match_clusters_to_users` selects. -/
def isProfileUsage : MediaUsageType → Bool
  | .profile_picture => true
  | .profile_picture_angle => true
  | .profile_picture_archived => true
  | _ => false

/-- A `Media` row (`src/models/media.py`): only the columns the pipeline
touches. -/
structure MediaRow where
  id : Nat
  face_count : Nat := 0
deriving DecidableEq, Repr

/-- A `MediaUsage` row (`src/models/media.py`). -/
structure MediaUsageRow where
  media_id : Nat
  owner_type : ContentOwnerType
  owner_id : Nat
  usage_type : MediaUsageType
deriving DecidableEq, Repr

/-- A `FaceEmbedding` row (`src/models/face.py`). -/
structure FaceEmbeddingRow where
  id : Nat
  media_id : Nat
  embedding : Vec
  cluster_id : Option Nat := none
  status : String := "pending"
deriving DecidableEq, Repr

/-- A `FaceCluster` row (`src/models/face.py`). -/
structure FaceClusterRow where
  id : Nat
  centroid : Vec
  user_id : Option Nat := none
  event_id : Option Nat := none
deriving DecidableEq, Repr

/-- A `User` row: the pipeline reads only its id. -/
structure UserRow where
  id : Nat
deriving DecidableEq, Repr

/-- A `MediaEmbedding` row (`src/models/media.py`): per-media embedding
list used by the retroactive matcher; `media_id` is declared `unique=True`
in the source. -/
structure MediaEmbeddingRow where
  media_id : Nat
  embeddings : List Vec
  status : String := "pending"
deriving DecidableEq, Repr

/-- Modelled from the spec: the `FaceMatch` row type is referenced by
`src/utils/face_rematch.py` but its model class is not under `src/`
(`models/__init__.py` does not define or re-export it).  Spec §3: "a
record of one face (identified by media + embedding index) being evaluated
against known users ... Attributes: event reference, media reference,
embedding index, optional matched user, distance score, boolean 'is a
known participant of the event'". -/
structure FaceMatchRow where
  id : Nat
  event_id : Nat
  media_id : Nat
  embedding_index : Nat
  matched_user_id : Option Nat := none
  distance : Option ℚ := none
  is_participant : Bool := false
deriving DecidableEq, Repr

/-- An `EventParticipant` row (`src/models/events.py`). -/
structure EventParticipantRow where
  event_id : Nat
  user_id : Nat
  status : String := "pending"
deriving DecidableEq, Repr

/-- The database state: one list of rows per table, plus the id the next
`INSERT` into each autoincrement table would receive. -/
structure DB where
  media : List MediaRow := []
  usages : List MediaUsageRow := []
  faceEmbeddings : List FaceEmbeddingRow := []
  clusters : List FaceClusterRow := []
  users : List UserRow := []
  mediaEmbeddings : List MediaEmbeddingRow := []
  faceMatches : List FaceMatchRow := []
  participants : List EventParticipantRow := []
  nextClusterId : Nat := 1
  nextEmbeddingId : Nat := 1
deriving DecidableEq, Repr

/-- Well-formedness of a database state, as guaranteed by the schema and
the upload flow: primary keys are unique, autoincrement counters are
fresh, each media item has at most one `MediaUsage` row
(`save_file_to_db` in `src/utils/media.py` creates exactly one per
upload), and at most one `MediaEmbedding` row (`unique=True` on its
`media_id` column). -/
def DBwf (db : DB) : Prop :=
  (db.media.map (·.id)).Nodup ∧
  (db.faceEmbeddings.map (·.id)).Nodup ∧
  (db.clusters.map (·.id)).Nodup ∧
  (db.users.map (·.id)).Nodup ∧
  (∀ c ∈ db.clusters, c.id < db.nextClusterId) ∧
  (∀ fe ∈ db.faceEmbeddings, fe.id < db.nextEmbeddingId) ∧
  (∀ m ∈ db.media, (db.usages.filter (fun u => u.media_id == m.id)).length ≤ 1) ∧
  (db.mediaEmbeddings.map (·.media_id)).Nodup ∧
  (∀ c ∈ db.clusters, 0 < c.id ∧ c.user_id ≠ some 0) ∧
  (∀ u ∈ db.users, 0 < u.id) ∧
  (∀ g ∈ db.usages, 0 < g.owner_id) ∧
  (∀ fe ∈ db.faceEmbeddings, fe.cluster_id ≠ some 0) ∧
  1 ≤ db.nextClusterId

instance : DecidablePred DBwf := fun db => by unfold DBwf; infer_instance

instance : Inhabited Vec := ⟨⟨[], true⟩⟩

instance : Inhabited FaceClusterRow := ⟨⟨0, default, none, none⟩⟩

/-! ## `update_cluster_centroid` (`src/utils/face.py` lines 385-439) -/
/-- Does a media row with this id exist?  (The inner join through
`Media` on `Media.id == FaceEmbedding.media_id`.) -/
def mediaExists (db : DB) (mid : Nat) : Bool :=
  db.media.any (fun m => m.id == mid)

/-- The `MediaUsage` rows that make a media item event-scoped and
non-enrollment: `owner_type == EVENT` and `usage_type` not one of the
three profile-picture types (the `where` clause of
`update_cluster_centroid`'s query). -/
def eventScopedUsages (db : DB) (mid : Nat) : List MediaUsageRow :=
  db.usages.filter fun u =>
    u.media_id == mid && u.owner_type == ContentOwnerType.event &&
      !(isProfileUsage u.usage_type)

/-- The rows of `update_cluster_centroid`'s join
`FaceEmbedding ⋈ Media ⋈ MediaUsage` for cluster `cid`: one row per
(embedding, matching usage) pair, multiplicity preserved as SQL does. -/
def centroidSourceRows (db : DB) (cid : Nat) : List FaceEmbeddingRow :=
  db.faceEmbeddings.flatMap fun fe =>
    if fe.cluster_id == some cid && mediaExists db fe.media_id then
      (eventScopedUsages db fe.media_id).map fun _ => fe
    else []

/-- `update_cluster_centroid`: recompute a cluster's centroid as the mean
of all currently assigned, valid, event-scoped (non-profile-picture)
member embeddings; leave the cluster untouched when there are none. -/
def update_cluster_centroid (db : DB) (cid : Nat) : DB :=
  match db.clusters.find? (fun c => c.id == cid) with
  | none => db
  | some _ =>
    let face_rows := centroidSourceRows db cid
    if face_rows.isEmpty then db
    else
      let valid_embeddings :=
        (face_rows.filter fun f => validate_embedding f.embedding).map (·.embedding)
      if valid_embeddings.isEmpty then db
      else
        let centroid := meanVec valid_embeddings
        if !(validate_embedding centroid) then db
        else
          { db with
            clusters := db.clusters.map fun c =>
              if c.id == cid then { c with centroid := centroid } else c }

/-! ## Incremental clusterer (`cluster_embeddings_for_media`, lines 176-301) -/
/-- `create_cluster_safely` (lines 70-89): insert a new cluster after
validating the centroid; `none` models the `None` early return on
invalid (NaN/Inf) data. -/
def create_cluster_safely (db : DB) (centroid : Vec) :
    Option (FaceClusterRow × DB) :=
  if !(validate_embedding centroid) then none
  else
    let c : FaceClusterRow := { id := db.nextClusterId, centroid := centroid }
    some (c, { db with
      clusters := db.clusters ++ [c],
      nextClusterId := db.nextClusterId + 1 })

/-- The recursion of `np.argmax`: current index, best index so far, best
value so far; strict improvement only, so the first maximum wins. -/
def argmaxGo : List ℚ → Nat → Nat → ℚ → Nat
  | [], _, bi, _ => bi
  | x :: rest, i, bi, bv =>
    if bv < x then argmaxGo rest (i + 1) i x else argmaxGo rest (i + 1) bi bv

/-- `np.argmax`: index of the maximum of a list, first occurrence on
ties (`0` on the empty list, which the pipeline never queries). -/
def argmaxIdx : List ℚ → Nat
  | [] => 0
  | x :: rest => argmaxGo rest 1 0 x

/-- The loop state of `cluster_embeddings_for_media`: the database plus
the function's local `clusters` / `cluster_centroids` lists (ids and the
centroids *as loaded or created* — the source never refreshes them inside
the loop) and the `updated_cluster_ids` set (kept in insertion order). -/
structure ClusterBatchState where
  db : DB
  localIds : List Nat
  localCentroids : List Vec
  updated : List Nat
deriving Repr

/-- Set an embedding's `cluster_id` and mark it `completed` (the
`fe.cluster_id = ...; fe.status = "completed"; session.add(fe)` blocks). -/
def assignEmbedding (db : DB) (feId : Nat) (cid : Nat) : DB :=
  { db with
    faceEmbeddings := db.faceEmbeddings.map fun f =>
      if f.id == feId then { f with cluster_id := some cid, status := "completed" } else f }

/-- The two `create_cluster_safely`-then-assign blocks of
`cluster_embeddings_for_media` (no-clusters case and below-threshold
case): create an event-scoped cluster seeded at `vec`, assign the
embedding to it, and extend the local lists. -/
def spawnClusterFor (eventId : Option Nat) (s : ClusterBatchState)
    (feId : Nat) (vec : Vec) : ClusterBatchState :=
  match create_cluster_safely s.db vec with
  | none => s
  | some (c, db1) =>
    let c := { c with event_id := eventId }
    let db2 := { db1 with
      clusters := db1.clusters.map fun c2 => if c2.id == c.id then c else c2 }
    let db3 := assignEmbedding db2 feId c.id
    { db := db3,
      localIds := s.localIds ++ [c.id],
      localCentroids := s.localCentroids ++ [c.centroid],
      updated := s.updated ++ [c.id] }

/-- One iteration of the loop `for fe in face_embeddings` (lines
219-288): skip invalid embeddings; create the event's first cluster if
none exist; otherwise assign to the most similar cluster when its
similarity reaches `threshold - 0.03`, else spawn a new cluster. -/
def clusterStep (sim : Vec → Vec → ℚ) (threshold : ℚ) (eventId : Option Nat)
    (s : ClusterBatchState) (fe : FaceEmbeddingRow) : ClusterBatchState :=
  if !(validate_embedding fe.embedding) then s
  else
    let vec := fe.embedding
    if s.localCentroids.isEmpty then spawnClusterFor eventId s fe.id vec
    else
      let sims := s.localCentroids.map fun c => sim vec c
      let best_idx := argmaxIdx sims
      let best_score := sims.getD best_idx 0
      let assignment_threshold := qsub threshold (mkRat 3 100)
      if assignment_threshold ≤ best_score then
        let cid := s.localIds.getD best_idx 0
        { s with db := assignEmbedding s.db fe.id cid, updated := s.updated ++ [cid] }
      else spawnClusterFor eventId s fe.id vec

/-- Step 1 of `cluster_embeddings_for_media`: the event owning this
media, from the first `MediaUsage` row (`None` when the media is not
event-owned). -/
def clusterEventId (db : DB) (media_id : Nat) : Option Nat :=
  match (db.usages.filter (fun u => u.media_id == media_id)).head? with
  | some u => if u.owner_type == ContentOwnerType.event then some u.owner_id else none
  | none => none

/-- Step 2: the unclustered embeddings of this media. -/
def unclusteredOf (db : DB) (media_id : Nat) : List FaceEmbeddingRow :=
  db.faceEmbeddings.filter fun fe => fe.media_id == media_id && fe.cluster_id == none

/-- Step 3: the assignment loop, folded over the loaded embeddings,
starting from the event's existing clusters (an empty local list when the
media has no event). -/
def clusterBatchResult (sim : Vec → Vec → ℚ) (db : DB) (media_id : Nat)
    (threshold : ℚ) : ClusterBatchState :=
  let event_id := clusterEventId db media_id
  let clusters : List FaceClusterRow :=
    match event_id with
    | some eid => db.clusters.filter (fun c => c.event_id == some eid)
    | none => []
  let s0 : ClusterBatchState := ⟨db, clusters.map (·.id), clusters.map (·.centroid), []⟩
  (unclusteredOf db media_id).foldl (clusterStep sim threshold event_id) s0

/-! ## Cluster merger (`merge_similar_clusters`, lines 304-382) -/
/-- The loop state of `merge_similar_clusters`: the database, the set of
snapshot indices already merged away this pass, and a ghost log of
`(surviving cluster id, merged-away cluster id)` pairs. -/
structure MergeState where
  db : DB
  merged : List Nat
  logPairs : List (Nat × Nat)
deriving Repr

/-- The body of the inner loop `for j in range(i+1, len(valid_clusters))`:
if `j` is still unmerged and the snapshot similarity matrix entry reaches
the threshold, reassign all of cluster `j`'s member embeddings to cluster
`i`, transfer `user_id` when the (live) cluster `i` lacks one, and delete
cluster `j`. -/
def mergeStepJ (sim : Vec → Vec → ℚ) (t : ℚ) (snap : List FaceClusterRow)
    (i : Nat) (st : MergeState) (j : Nat) : MergeState :=
  if st.merged.contains j then st
  else
    let ci := snap.getD i default
    let cj := snap.getD j default
    if t ≤ sim ci.centroid cj.centroid then
      let db1 : DB := { st.db with
        faceEmbeddings := st.db.faceEmbeddings.map fun fe =>
          if fe.cluster_id == some cj.id then { fe with cluster_id := some ci.id } else fe }
      let iHasUser := ((db1.clusters.find? (fun c => c.id == ci.id)).map (·.user_id)).getD none
      -- `if cluster_j.user_id and not cluster_i.user_id:` — Python truthiness,
      -- under which both `None` and `0` are falsy
      let db2 : DB :=
        if !(cj.user_id.getD 0 == 0) && iHasUser.getD 0 == 0 then
          { db1 with
            clusters := db1.clusters.map fun c =>
              if c.id == ci.id then { c with user_id := cj.user_id } else c }
        else db1
      let db3 : DB := { db2 with clusters := db2.clusters.filter (fun c => !(c.id == cj.id)) }
      { db := db3, merged := st.merged ++ [j], logPairs := st.logPairs ++ [(ci.id, cj.id)] }
    else st

/-- The body of the outer loop `for i in range(len(valid_clusters))`:
skip indices already merged away, fold the inner loop, then recompute the
survivor's centroid. -/
def mergeStepI (sim : Vec → Vec → ℚ) (t : ℚ) (snap : List FaceClusterRow)
    (st : MergeState) (i : Nat) : MergeState :=
  if st.merged.contains i then st
  else
    let st1 :=
      (List.range' (i + 1) (snap.length - (i + 1))).foldl (mergeStepJ sim t snap i) st
    if st1.merged.contains i then st1
    else { st1 with db := update_cluster_centroid st1.db (snap.getD i default).id }

/-- `merge_similar_clusters` with its ghost outputs: one greedy pass over
the upper triangle of the pairwise similarity matrix of the event's
valid-centroid clusters. -/
def merge_pass (sim : Vec → Vec → ℚ) (db : DB) (event_id : Nat) (t : ℚ) :
    MergeState :=
  let clusters := db.clusters.filter (fun c => c.event_id == some event_id)
  if clusters.length < 2 then ⟨db, [], []⟩
  else
    let valid_clusters := clusters.filter (fun c => validate_embedding c.centroid)
    if valid_clusters.length < 2 then ⟨db, [], []⟩
    else
      (List.range valid_clusters.length).foldl (mergeStepI sim t valid_clusters)
        ⟨db, [], []⟩

/-- `merge_similar_clusters`: the resulting database state. -/
def merge_similar_clusters (sim : Vec → Vec → ℚ) (db : DB) (event_id : Nat)
    (merge_threshold : ℚ := mkRat 72 100) : DB :=
  (merge_pass sim db event_id merge_threshold).db

/-- `cluster_embeddings_for_media` (lines 176-301): resolve the media's
event, assign every unclustered embedding (`clusterStep`), recompute the
centroid of every touched cluster (`updated_cluster_ids` is a Python
`set`; recomputations of distinct clusters commute, so it is modelled in
first-insertion order after `dedup`), then — for event media (`if
event_id:`, Python truthiness, so a zero id is also skipped) — merge
similar clusters at threshold 0.72. -/
def cluster_embeddings_for_media (sim : Vec → Vec → ℚ) (db : DB)
    (media_id : Nat) (threshold : ℚ := mkRat 68 100) : DB :=
  if (unclusteredOf db media_id).isEmpty then db
  else
    let event_id := clusterEventId db media_id
    let s1 := clusterBatchResult sim db media_id threshold
    let db2 := s1.updated.dedup.foldl update_cluster_centroid s1.db
    match event_id with
    | some eid => if 0 < eid then merge_similar_clusters sim db2 eid (mkRat 72 100) else db2
    | none => db2

/-! ## Identity matcher (`match_clusters_to_users`, lines 442-552) -/
/-- The join gathering user profile embeddings:
`User ⋈ MediaUsage ⋈ Media ⋈ FaceEmbedding` with `owner_type == USER` and
a profile usage type; nested-loop order, multiplicity preserved. -/
def userProfileRows (db : DB) : List (Nat × Vec) :=
  db.users.flatMap fun u =>
    (db.usages.filter fun g =>
      g.owner_id == u.id && g.owner_type == ContentOwnerType.user &&
        isProfileUsage g.usage_type).flatMap fun g =>
      (db.media.filter fun m => m.id == g.media_id).flatMap fun m =>
        (db.faceEmbeddings.filter fun fe => fe.media_id == m.id).map fun fe =>
          (u.id, fe.embedding)

/-- `user_embeddings`: the Python dict (insertion order) from user id to
that user's validated profile embeddings; rows failing
`validate_embedding` are dropped. -/
def buildUserEmbeddings (rows : List (Nat × Vec)) : List (Nat × List Vec) :=
  rows.foldl (fun acc r =>
    if validate_embedding r.2 then
      if acc.any (fun p => p.1 == r.1) then
        acc.map fun p => if p.1 == r.1 then (p.1, p.2 ++ [r.2]) else p
      else acc ++ [(r.1, [r.2])]
    else acc) []

/-- `np.mean` of a list of rationals. -/
def meanQ (l : List ℚ) : ℚ := qdiv (l.foldl qadd 0) (l.length : ℚ)

/-- The inner user loop of `match_clusters_to_users`: fold over the dict
with `best_user = None`, `best_sim = -1.0`, strict improvement
(`avg_sim > best_sim`), score = mean similarity over the user's
embeddings. -/
def bestUserFor (sim : Vec → Vec → ℚ) (centroid : Vec)
    (userEmb : List (Nat × List Vec)) : Option Nat × ℚ :=
  userEmb.foldl
    (fun (best : Option Nat × ℚ) p =>
      let avg := meanQ (p.2.map fun uvec => sim centroid uvec)
      if best.2 < avg then (some p.1, avg) else best)
    (none, mkRat (-1) 1)

/-- The cluster ids touched by this media: distinct non-null (and, by
Python truthiness, non-zero) `cluster_id`s of its embeddings; a Python
set, modelled in first-occurrence order. -/
def touchedClusterIds (db : DB) (media_id : Nat) : List Nat :=
  (((db.faceEmbeddings.filter fun fe =>
      fe.media_id == media_id && !(fe.cluster_id == none)).filterMap
        (·.cluster_id)).filter (fun cid => !(cid == 0))).dedup

/-- The body of the `for cluster_id in cluster_ids` loop of
`match_clusters_to_users`: look the cluster up, score it against every
enrolled user, and record the best user when the score reaches the
threshold (and differs from the already-recorded match). -/
def matchClusterStep (sim : Vec → Vec → ℚ)
    (user_embeddings : List (Nat × List Vec)) (user_threshold : ℚ)
    (d : DB) (cid : Nat) : DB :=
  match d.clusters.find? (fun c => c.id == cid) with
  | none => d
  | some cluster =>
    if !(validate_embedding cluster.centroid) then d
    else
      let best := bestUserFor sim cluster.centroid user_embeddings
      match best.1 with
      | none => d
      | some uid =>
        -- `if best_user and best_sim >= user_threshold:` (truthiness)
        if 0 < uid && decide (user_threshold ≤ best.2) then
          if cluster.user_id == some uid then d
          else
            { d with
              clusters := d.clusters.map fun c =>
                if c.id == cid then { c with user_id := some uid } else c }
        else d

/-- `match_clusters_to_users` (lines 442-552): for each cluster touched
by this media, pick the enrolled user with the highest mean similarity to
the cluster centroid and record it when it reaches the identity
threshold.  The event lookup in the source feeds only notifications and
is omitted. -/
def match_clusters_to_users (sim : Vec → Vec → ℚ) (db : DB) (media_id : Nat)
    (user_threshold : ℚ := mkRat 72 100) : DB :=
  let touched := touchedClusterIds db media_id
  if touched.isEmpty then db
  else
    let user_embeddings := buildUserEmbeddings (userProfileRows db)
    touched.foldl (matchClusterStep sim user_embeddings user_threshold) db

/-! ## Embedding extractor (`generate_embeddings_background`, lines 92-173) -/
/-- One face record of the embedding service's JSON response;
`embedding` is `face.get("embedding")`, which may be absent (or an empty
list, both falsy). -/
structure FaceRec where
  embedding : Option Vec
deriving DecidableEq, Repr

/-- The parsed JSON body of a successful `POST /embed` call: either an
error object (`{"error": ...}`) or a list of face records (any other
non-list shape behaves as the empty list, per
`data if isinstance(data, list) else []`). -/
inductive EmbedResponse
  | errorResp (msg : String)
  | faces (fs : List FaceRec)
deriving DecidableEq, Repr

/-- The body of the `for idx, face in enumerate(faces)` loop: skip faces
with a falsy (`None`/empty) or invalid embedding, insert one
`FaceEmbedding` row otherwise, and count the insertion (`created`). -/
def addFaceStep (media_id : Nat) (p : DB × Nat) (f : FaceRec) : DB × Nat :=
  match f.embedding with
  | none => p
  | some emb =>
    if emb.entries.isEmpty then p
    else if !(validate_embedding emb) then p
    else
      let fe : FaceEmbeddingRow :=
        { id := p.1.nextEmbeddingId, media_id := media_id, embedding := emb }
      ({ p.1 with
          faceEmbeddings := p.1.faceEmbeddings ++ [fe],
          nextEmbeddingId := p.1.nextEmbeddingId + 1 },
        p.2 + 1)

/-- The `for idx, face in enumerate(faces)` loop. -/
def addFaceRows (db : DB) (media_id : Nat) (fs : List FaceRec) : DB × Nat :=
  fs.foldl (addFaceStep media_id) (db, 0)

/-- `generate_embeddings_background` (lines 92-173), from the point where
the embedding service's response body `resp` is available: on an error
object, notify and return (face count untouched); otherwise store the
valid faces, set the media's `face_count` to the number stored, then run
the incremental clusterer and the identity matcher. -/
def generate_embeddings_background (sim : Vec → Vec → ℚ) (db : DB)
    (media_id : Nat) (resp : EmbedResponse) : DB :=
  if !(mediaExists db media_id) then db
  else
    match resp with
    | .errorResp _ => db
    | .faces fs =>
      let p := addFaceRows db media_id fs
      let db2 : DB :=
        { p.1 with
          media := p.1.media.map fun m =>
            if m.id == media_id then { m with face_count := p.2 } else m }
      let db3 := cluster_embeddings_for_media sim db2 media_id (mkRat 68 100)
      match_clusters_to_users sim db3 media_id (mkRat 72 100)

/-! ## Batch re-clusterer (`cluster_unclustered_faces_in_event`, lines 555-658) -/
/-- The join of `cluster_unclustered_faces_in_event`:
`FaceEmbedding ⋈ Media ⋈ MediaUsage` restricted to this event's media
with non-profile usage types. -/
def eventFaceRows (db : DB) (event_id : Nat) : List FaceEmbeddingRow :=
  db.faceEmbeddings.flatMap fun fe =>
    (db.media.filter fun m => m.id == fe.media_id).flatMap fun _m =>
      (db.usages.filter fun u =>
        u.media_id == fe.media_id && u.owner_type == ContentOwnerType.event &&
          u.owner_id == event_id && !(isProfileUsage u.usage_type)).map fun _ => fe

/-- First-occurrence deduplication (Python dict key order). -/
def firstDedup (l : List Int) : List Int :=
  l.foldl (fun acc x => if acc.contains x then acc else acc ++ [x]) []

/-- `cluster_unclustered_faces_in_event` (lines 555-658): run DBSCAN
(`dbscan` is sklearn's fitted label assignment, an external algorithm
treated as an oracle: one label per input point, `-1` = noise) over the
event's valid unclustered embeddings, create one cluster per discovered
group with centroid = group mean, assign the group, then merge similar
clusters. -/
def cluster_unclustered_faces_in_event (sim : Vec → Vec → ℚ)
    (dbscan : List Vec → List Int) (db : DB) (event_id : Nat) : DB :=
  let rows := eventFaceRows db event_id
  let mapping := rows.filter fun fe =>
    fe.cluster_id == none && validate_embedding fe.embedding
  if mapping.isEmpty then db
  else
    let labels := dbscan (mapping.map (·.embedding))
    let pairs := mapping.zip labels
    let keys := firstDedup (labels.filter fun l => !(l == -1))
    let db1 := keys.foldl
      (fun d ℓ =>
        let group := (pairs.filter fun q => q.2 == ℓ).map (·.1)
        let valid := (group.filter fun g => validate_embedding g.embedding).map (·.embedding)
        if valid.isEmpty then d
        else
          let centroid := meanVec valid
          if !(validate_embedding centroid) then d
          else
            let c : FaceClusterRow :=
              { id := d.nextClusterId, centroid := centroid, event_id := some event_id }
            let d1 : DB := { d with
              clusters := d.clusters ++ [c], nextClusterId := d.nextClusterId + 1 }
            group.foldl (fun dd g => assignEmbedding dd g.id c.id) d1)
      db
    merge_similar_clusters sim db1 event_id (mkRat 72 100)

/-! ## Retroactive matcher (`src/utils/face_rematch.py`) -/
/-- The user's reference `MediaEmbedding` row: `.first()` of the
`MediaEmbedding ⋈ MediaUsage` join with `PROFILE_PICTURE` usage owned by
this user and status `completed`. -/
def userProfileEmbeddingRow (db : DB) (user_id : Nat) : Option MediaEmbeddingRow :=
  (db.mediaEmbeddings.flatMap fun me =>
    if me.status == "completed" then
      (db.usages.filter fun g =>
        g.media_id == me.media_id && g.owner_type == ContentOwnerType.user &&
          g.owner_id == user_id &&
          g.usage_type == MediaUsageType.profile_picture).map fun _ => me
    else []).head?

/-- The per-row body shared by both retroactive matchers (lines 51-67 and
141-161): look up the media's completed embedding list (the inner join —
a missing row drops the `FaceMatch` from the scan), skip empty lists and
out-of-range indices, compute the distance to the user's reference
embedding, and mutate the row in place when it is strictly under the
threshold. -/
def retroMatchRow (dist : Vec → Vec → ℚ) (threshold : ℚ) (user_id : Nat)
    (user_emb : Vec) (db : DB) (fm : FaceMatchRow) : FaceMatchRow :=
  match db.mediaEmbeddings.find? (fun me =>
      me.media_id == fm.media_id && me.status == "completed") with
  | none => fm
  | some me =>
    if me.embeddings.isEmpty then fm
    else if me.embeddings.length ≤ fm.embedding_index then fm
    else
      let face_emb := me.embeddings.getD fm.embedding_index default
      let distance := dist user_emb face_emb
      if distance < threshold then
        { fm with
          matched_user_id := some user_id,
          distance := some distance,
          is_participant := true }
      else fm

/-- `retroactive_match_user_in_event` (lines 14-88): match one user's
reference embedding against every unmatched `FaceMatch` row of one
event. -/
def retroactive_match_user_in_event (dist : Vec → Vec → ℚ) (db : DB)
    (user_id event_id : Nat) (threshold : ℚ := mkRat 6 10) : DB :=
  match userProfileEmbeddingRow db user_id with
  | none => db
  | some ue =>
    if ue.embeddings.isEmpty then db
    else
      let user_emb := ue.embeddings.getD 0 default
      { db with
        faceMatches := db.faceMatches.map fun fm =>
          if fm.event_id == event_id && fm.matched_user_id == none then
            retroMatchRow dist threshold user_id user_emb db fm
          else fm }

/-- The events in which this user is an approved participant. -/
def approvedEventIds (db : DB) (user_id : Nat) : List Nat :=
  (db.participants.filter fun ep =>
    ep.user_id == user_id && ep.status == "approved").map (·.event_id)

/-- `retroactive_match_all_events` (lines 91-185): the same scan over
every event the user is approved in. -/
def retroactive_match_all_events (dist : Vec → Vec → ℚ) (db : DB)
    (user_id : Nat) (threshold : ℚ := mkRat 6 10) : DB :=
  match userProfileEmbeddingRow db user_id with
  | none => db
  | some ue =>
    if ue.embeddings.isEmpty then db
    else
      let user_emb := ue.embeddings.getD 0 default
      let event_ids := approvedEventIds db user_id
      if event_ids.isEmpty then db
      else
        { db with
          faceMatches := db.faceMatches.map fun fm =>
            if event_ids.contains fm.event_id && fm.matched_user_id == none then
              retroMatchRow dist threshold user_id user_emb db fm
            else fm }

/-! ## `safe_request` (lines 34-50) and its retry policy -/
/-- One attempt's outcome at the HTTP layer: a timeout, a connection
error, or a response with its HTTP status code (bodies are opaque at this
layer). -/
inductive HttpOutcome
  | timeout
  | connError
  | response (status : Nat)
deriving DecidableEq, Repr

/-- Does the attempt raise `NetworkError`?  `requests.Timeout` and
`requests.ConnectionError` do; `raise_for_status()` raises
`requests.HTTPError` for every status ≥ 400 — 4xx and 5xx alike — and
`safe_request` wraps all three into `NetworkError`, the only exception
type tenacity retries. -/
def raisesNetworkError : HttpOutcome → Bool
  | .timeout => true
  | .connError => true
  | .response status => 400 ≤ status

/-- tenacity `wait_exponential(multiplier=2, min=2, max=20)`: seconds
waited after the `n`-th failed attempt (`n ≥ 1`), doubling from 2 and
clamped to 20. -/
def backoffWait (n : Nat) : Nat := max 2 (min 20 (2 * 2 ^ (n - 1)))

/-- The retry loop of `@retry(stop=stop_after_attempt(3), wait=...,
retry=retry_if_exception_type(NetworkError), reraise=True)`: attempt `k`
observes `outcomes[k]` (an oracle list; missing entries default to a
connection error); `NetworkError`-raising outcomes are retried while
attempts remain, and the last error is re-raised (`reraise=True`).
Returns the delivered result and the number of attempts made. -/
def safe_request_run (outcomes : List HttpOutcome) :
    Nat → Nat → Except HttpOutcome HttpOutcome × Nat
  | attempt, 0 => (.error (outcomes.getD (attempt - 1) .connError), attempt)
  | attempt, remaining + 1 =>
    let o := outcomes.getD attempt .connError
    if raisesNetworkError o then
      match remaining with
      | 0 => (.error o, attempt + 1)
      | r + 1 => safe_request_run outcomes (attempt + 1) (r + 1)
    else (.ok o, attempt + 1)

/-- `safe_request`: at most 3 attempts. -/
def safe_request (outcomes : List HttpOutcome) :
    Except HttpOutcome HttpOutcome × Nat :=
  safe_request_run outcomes 0 3

/-- Specification of `np.argmax` on a list: `i` is in range, carries the
maximum value, and every strictly earlier position is strictly below it
(first maximum wins ties). -/
def isFirstArgmax (l : List ℚ) (i : Nat) : Prop :=
  i < l.length ∧ (∀ j < l.length, l.getD j 0 ≤ l.getD i 0) ∧
    ∀ j < i, l.getD j 0 < l.getD i 0

/-- Loop state for the `clusterStep_cases` witness: one pending
embedding, no clusters yet. -/
def sC2w : ClusterBatchState :=
  ⟨{ faceEmbeddings := [FaceEmbeddingRow.mk 1 1 (Vec.mk [1] true) none "pending"],
     nextClusterId := 1 }, [], [], []⟩

/-- A concrete state for the `retro_matchers_skip_malformed_rows`
witness: one unmatched match row whose stored index 3 is out of range for
its media's single-element embedding list. -/
def dbC10w : DB :=
  { faceMatches := [⟨1, 5, 1, 3, none, none, false⟩],
    mediaEmbeddings := [⟨1, [⟨[1], true⟩], "completed"⟩] }

/-- A concrete state for the
`retroactive_match_user_in_event_semantics` witness: user 7 enrolled with
reference embedding `(1,0)` via media 10; event 5 has one unmatched match
row pointing at face `(3/5, 4/5)` of media 1, at cosine distance `2/5`
from the reference. -/
def dbC6w : DB :=
  { usages := [MediaUsageRow.mk 10 .user 7 .profile_picture],
    mediaEmbeddings :=
      [MediaEmbeddingRow.mk 10 [Vec.mk [1, 0] true] "completed",
       MediaEmbeddingRow.mk 1 [Vec.mk [mkRat 3 5, mkRat 4 5] true] "completed"],
    faceMatches := [FaceMatchRow.mk 1 5 1 0 none none false] }

/-- Concrete state for the `generate_embeddings_face_count` witness. -/
def dbC9w : DB := { media := [MediaRow.mk 1 0] }

/-- The invariant carried through the incremental clusterer's loop when
the media belongs to no event: every cluster is a pre-existing one or
event-less, the local/touched id lists point to event-less clusters with
fresh ids, and every reassigned embedding points to an event-less
cluster. -/
def EvlessInv (db : DB) (s : ClusterBatchState) : Prop :=
  (∀ c ∈ s.db.clusters, c ∈ db.clusters ∨ c.event_id = none) ∧
  (∀ cid ∈ s.localIds, ∃ c ∈ s.db.clusters, c.id = cid ∧ c.event_id = none) ∧
  (∀ cid ∈ s.updated, ∃ c ∈ s.db.clusters, c.id = cid ∧ c.event_id = none) ∧
  (∀ c ∈ s.db.clusters, c.id < s.db.nextClusterId) ∧
  (∀ (i : Nat) (fe fe' : FaceEmbeddingRow), db.faceEmbeddings[i]? = some fe →
      s.db.faceEmbeddings[i]? = some fe' →
      fe'.cluster_id = fe.cluster_id ∨
        ∃ c ∈ s.db.clusters, fe'.cluster_id = some c.id ∧ c.event_id = none) ∧
  s.localIds.length = s.localCentroids.length

/-- A user's enrollment upload: media 1 carries a `PROFILE_PICTURE` usage
owned by user 9 and one pending face embedding. -/
def dbC7x : DB :=
  { media := [MediaRow.mk 1 0],
    usages := [⟨1, ContentOwnerType.user, 9, MediaUsageType.profile_picture⟩],
    faceEmbeddings := [⟨1, 1, ⟨[1], true⟩, none, "pending"⟩],
    nextEmbeddingId := 2 }

/-- Unit vector along the first axis. -/
def vA : Vec := ⟨[1, 0, 0], true⟩

/-- A unit vector at cosine `3479/3721 ≈ 0.935` to `vA` (above the merge
threshold) whose mean with `vA` still has a rational norm. -/
def vB : Vec := ⟨[mkRat 3479 3721, mkRat 1320 3721, 0], true⟩

/-- A unit vector at cosine `3/5 = 0.6` to `vA` (below every threshold). -/
def vC : Vec := ⟨[mkRat 3 5, mkRat 4 5, 0], true⟩

/-- Event 5 with three singleton clusters at `vA`, `vB`, `vC`: `vA`/`vB`
merge in a first pass, and the recomputed survivor centroid (their mean)
is close enough to `vC` to merge again in a second pass. -/
def dbC4 : DB :=
  { media := [⟨1, 0⟩, ⟨2, 0⟩, ⟨3, 0⟩],
    usages := [⟨1, .event, 5, .gallery⟩, ⟨2, .event, 5, .gallery⟩,
               ⟨3, .event, 5, .gallery⟩],
    faceEmbeddings := [⟨1, 1, vA, some 1, "completed"⟩,
                       ⟨2, 2, vB, some 2, "completed"⟩,
                       ⟨3, 3, vC, some 3, "completed"⟩],
    clusters := [⟨1, vA, none, some 5⟩, ⟨2, vB, none, some 5⟩,
                 ⟨3, vC, none, some 5⟩],
    nextClusterId := 4, nextEmbeddingId := 4 }

/-- Event 5 with only the two dissimilar clusters (`cos = 0.6 < 0.72`). -/
def dbC4two : DB :=
  { media := [⟨1, 0⟩, ⟨3, 0⟩],
    usages := [⟨1, .event, 5, .gallery⟩, ⟨3, .event, 5, .gallery⟩],
    faceEmbeddings := [⟨1, 1, vA, some 1, "completed"⟩,
                       ⟨3, 3, vC, some 3, "completed"⟩],
    clusters := [⟨1, vA, none, some 5⟩, ⟨3, vC, none, some 5⟩],
    nextClusterId := 4, nextEmbeddingId := 4 }

/-- Injectivity of snapshot indexing on cluster ids. -/
def SnapInj (snap : List FaceClusterRow) : Prop :=
  ∀ i j, i < snap.length → j < snap.length →
    (snap.getD i default).id = (snap.getD j default).id → i = j

/-- The ghost-log invariant of one merge pass, at outer position `s`:
sources (merged-away cluster ids) are pairwise distinct, every source id
is the id of a snapshot index recorded in `merged`, and every target
(surviving cluster id) is the id of a snapshot index below `s` that is
*not* in `merged` — so no merged-away cluster is ever reused as a source
or as a target. -/
def MergeLogInv (snap : List FaceClusterRow) (s : Nat) (st : MergeState) : Prop :=
  ((st.logPairs.map Prod.snd).Nodup) ∧
  (∀ p ∈ st.logPairs, ∃ jj ∈ st.merged, jj < snap.length ∧
    p.2 = (snap.getD jj default).id) ∧
  (∀ p ∈ st.logPairs, ∃ ii, ii < snap.length ∧ ii < s ∧ ii ∉ st.merged ∧
    p.1 = (snap.getD ii default).id)

/-- Event 5 with exactly the two similar clusters (`cos(vA,vB) ≈ 0.935`);
the later one carries a user match, the earlier one none. -/
def dbC3w : DB :=
  { media := [⟨1, 0⟩, ⟨2, 0⟩],
    usages := [⟨1, .event, 5, .gallery⟩, ⟨2, .event, 5, .gallery⟩],
    faceEmbeddings := [⟨1, 1, vA, some 1, "completed"⟩,
                       ⟨2, 2, vB, some 2, "completed"⟩],
    clusters := [⟨1, vA, none, some 5⟩, ⟨2, vB, some 9, some 5⟩],
    nextClusterId := 3, nextEmbeddingId := 3 }

/-- The score `match_clusters_to_users` gives a `(user, embeddings)`
entry: the mean similarity between the centroid and the user's validated
reference embeddings (`np.mean(...)` over `cosine_similarity` values). -/
def meanScore (sim : Vec → Vec → ℚ) (centroid : Vec) (p : Nat × List Vec) : ℚ :=
  meanQ (p.2.map fun uvec => sim centroid uvec)

/-- What `bestUserFor` computes, relative to the first `plen` entries of
`l`: either no entry scores above the `-1.0` sentinel and the accumulator
is untouched, or the result is the *first* entry attaining the maximal
mean score (strict improvement only, so earlier ties win). -/
def BestInv (sim : Vec → Vec → ℚ) (centroid : Vec) (l : List (Nat × List Vec))
    (plen : Nat) (acc : Option Nat × ℚ) : Prop :=
  (acc = (none, mkRat (-1) 1) ∧
    ∀ j, j < plen → meanScore sim centroid (l.getD j default) ≤ mkRat (-1) 1) ∨
  (∃ k, k < plen ∧
    acc = (some (l.getD k default).1, meanScore sim centroid (l.getD k default)) ∧
    mkRat (-1) 1 < meanScore sim centroid (l.getD k default) ∧
    (∀ j, j < plen → meanScore sim centroid (l.getD j default)
      ≤ meanScore sim centroid (l.getD k default)) ∧
    (∀ j, j < k → meanScore sim centroid (l.getD j default)
      < meanScore sim centroid (l.getD k default)))

/-- One enrolled user (id 9) and one touched cluster at `vA`. -/
def dbC5w : DB :=
  { media := [⟨1, 0⟩],
    usages := [⟨1, .event, 5, .gallery⟩],
    faceEmbeddings := [⟨1, 1, vA, some 1, "completed"⟩],
    clusters := [⟨1, vA, none, some 5⟩],
    users := [⟨9⟩],
    nextClusterId := 2, nextEmbeddingId := 2 }

/-- The member rows of a cluster as a set-level filter: currently
assigned, with an existing media row carrying an event-scoped non-profile
usage. -/
def memberRows (d : DB) (cid : Nat) : List FaceEmbeddingRow :=
  d.faceEmbeddings.filter (fun fe => fe.cluster_id == some cid &&
    mediaExists d fe.media_id && !((eventScopedUsages d fe.media_id).isEmpty))

/-- The embeddings entering a cluster's centroid: valid member rows. -/
def validMemberVecs (d : DB) (cid : Nat) : List Vec :=
  ((memberRows d cid).filter (fun fe => validate_embedding fe.embedding)).map
    (·.embedding)

/-- The centroid invariant carried through one merge pass, entered at
state `db` with snapshot `snap` and outer position `s`: media and usages
are untouched, cluster ids stay unique, clusters outside the snapshot are
untouched rows with unchanged membership, snapshot clusters not yet past
their outer iteration still hold their snapshot centroid, and every
snapshot cluster already past its iteration (and not merged away) holds
the mean of its current valid event-scoped members — or its snapshot
centroid if it has none. -/
def MergeCentroidInv (db : DB) (snap : List FaceClusterRow) (s : Nat)
    (st : MergeState) : Prop :=
  st.db.media = db.media ∧
  st.db.usages = db.usages ∧
  ((st.db.clusters.map (·.id)).Nodup) ∧
  (∀ c ∈ st.db.clusters, c.id ∉ snap.map (·.id) →
    c ∈ db.clusters ∧ validMemberVecs st.db c.id = validMemberVecs db c.id) ∧
  (∀ i, i < snap.length → s ≤ i → i ∉ st.merged →
    ∀ c ∈ st.db.clusters, c.id = (snap.getD i default).id →
      c.centroid = (snap.getD i default).centroid) ∧
  (∀ i, i < snap.length → i < s → i ∉ st.merged →
    ∀ c ∈ st.db.clusters, c.id = (snap.getD i default).id →
      (validMemberVecs st.db c.id ≠ [] →
        validate_embedding (meanVec (validMemberVecs st.db c.id)) = true →
        c.centroid = meanVec (validMemberVecs st.db c.id)) ∧
      (validMemberVecs st.db c.id = [] →
        c.centroid = (snap.getD i default).centroid))

/-- Event 5 with two dissimilar singleton clusters, each with one valid
event-scoped member. -/
def dbC1w : DB :=
  { media := [⟨1, 0⟩, ⟨3, 0⟩],
    usages := [⟨1, .event, 5, .gallery⟩, ⟨3, .event, 5, .gallery⟩],
    faceEmbeddings := [⟨1, 1, vA, some 1, "completed"⟩,
                       ⟨3, 3, vC, some 3, "completed"⟩],
    clusters := [⟨1, vA, none, some 5⟩, ⟨3, vC, none, some 5⟩],
    nextClusterId := 4, nextEmbeddingId := 4 }

theorem qadd_eq (a b : ℚ) : qadd a b = a + b := by
  rw [qadd, Rat.mkRat_eq_divInt]
  conv_rhs => rw [← Rat.num_divInt_den a, ← Rat.num_divInt_den b]
  rw [Rat.divInt_add_divInt _ _ (by exact_mod_cast a.den_nz) (by exact_mod_cast b.den_nz)]
  push_cast
  ring_nf

theorem qsub_eq (a b : ℚ) : qsub a b = a - b := by
  rw [qsub, Rat.mkRat_eq_divInt]
  conv_rhs => rw [← Rat.num_divInt_den a, ← Rat.num_divInt_den b]
  rw [Rat.divInt_sub_divInt _ _ (by exact_mod_cast a.den_nz) (by exact_mod_cast b.den_nz)]
  push_cast
  ring_nf

theorem qmul_eq (a b : ℚ) : qmul a b = a * b := by
  rw [qmul, Rat.mkRat_eq_divInt]
  conv_rhs => rw [← Rat.num_divInt_den a, ← Rat.num_divInt_den b]
  rw [Rat.divInt_mul_divInt']
  push_cast
  ring_nf

theorem qinv_eq (b : ℚ) : qinv b = b⁻¹ := by
  rw [qinv, Rat.inv_def']
  by_cases h : b.num < 0
  · rw [if_pos h, Rat.mkRat_eq_divInt]
    rw [show (b.num.natAbs : ℤ) = -b.num by omega, ← Rat.neg_divInt_neg]
    simp
  · rw [if_neg h, Rat.mkRat_eq_divInt]
    rw [show (b.num.natAbs : ℤ) = b.num by omega]

theorem qdiv_eq (a b : ℚ) : qdiv a b = a / b := by
  rw [qdiv, qmul_eq, qinv_eq, div_eq_mul_inv]

/-! ## Theorems -/
/-- **C8** (amended): `safe_request` makes between 1 and 3 attempts; a
retry is triggered exactly by attempts that raise `NetworkError` —
timeouts, connection errors, and HTTP error statuses `≥ 400` (4xx as well
as 5xx) — never by an application-level success response (such as a 200
body reporting "no face found"); when all 3 attempts fail the last
failure is re-raised to the caller; waits between attempts follow
`wait_exponential(multiplier=2, min=2, max=20)` (2s then 4s). -/
theorem safe_request_retry_policy (outcomes : List HttpOutcome) :
    (1 ≤ (safe_request outcomes).2 ∧ (safe_request outcomes).2 ≤ 3) ∧
    (raisesNetworkError (outcomes.getD 0 .connError) = false →
      safe_request outcomes = (.ok (outcomes.getD 0 .connError), 1)) ∧
    (raisesNetworkError (outcomes.getD 0 .connError) = true →
     raisesNetworkError (outcomes.getD 1 .connError) = false →
      safe_request outcomes = (.ok (outcomes.getD 1 .connError), 2)) ∧
    (raisesNetworkError (outcomes.getD 0 .connError) = true →
     raisesNetworkError (outcomes.getD 1 .connError) = true →
     raisesNetworkError (outcomes.getD 2 .connError) = false →
      safe_request outcomes = (.ok (outcomes.getD 2 .connError), 3)) ∧
    (raisesNetworkError (outcomes.getD 0 .connError) = true →
     raisesNetworkError (outcomes.getD 1 .connError) = true →
     raisesNetworkError (outcomes.getD 2 .connError) = true →
      safe_request outcomes = (.error (outcomes.getD 2 .connError), 3)) ∧
    (backoffWait 1 = 2 ∧ backoffWait 2 = 4) := by
  by_cases h0 : raisesNetworkError (outcomes.getD 0 .connError) <;>
    by_cases h1 : raisesNetworkError (outcomes.getD 1 .connError) <;>
      by_cases h2 : raisesNetworkError (outcomes.getD 2 .connError) <;>
        simp only [List.getD_eq_getElem?_getD] at h0 h1 h2 <;>
          simp [safe_request, safe_request_run, h0, h1, h2, backoffWait]

/-- Witness for `safe_request_retry_policy`: a single 200 response is
delivered on the first attempt. -/
theorem safe_request_retry_policy_witness :
    raisesNetworkError ((([HttpOutcome.response 200]).getD 0 .connError)) = false ∧
    safe_request [HttpOutcome.response 200] = (.ok (.response 200), 1) :=
  ⟨by decide, (safe_request_retry_policy [.response 200]).2.1 (by decide)⟩

/-- **C8** (counterexample): a 404 response — an application-level client
error, neither a timeout, nor a connection error, nor a 5xx server
failure — does trigger a retry: with outcomes `[404, 200]` the call makes
2 attempts and succeeds on the second, contradicting "a retry is
triggered only by transient network, timeout, or 5xx server failures". -/
theorem safe_request_retries_on_404 :
    raisesNetworkError (.response 404) = true ∧
    ¬ (500 ≤ 404) ∧
    HttpOutcome.response 404 ≠ .timeout ∧
    HttpOutcome.response 404 ≠ .connError ∧
    (safe_request [.response 404, .response 200]).1.toOption
      = some (.response 200) ∧
    (safe_request [.response 404, .response 200]).2 = 2 := by
  decide

/-- A malformed match row — its media's completed embedding list is
absent or empty, or the stored index is out of range — is left untouched
by `retroMatchRow`. -/
theorem retroMatchRow_malformed (dist : Vec → Vec → ℚ) (t : ℚ)
    (user_id : Nat) (user_emb : Vec) (db : DB) (fm : FaceMatchRow)
    (hmal : ∀ me ∈ db.mediaEmbeddings,
        me.media_id = fm.media_id → me.status = "completed" →
          me.embeddings = [] ∨ me.embeddings.length ≤ fm.embedding_index) :
    retroMatchRow dist t user_id user_emb db fm = fm := by
  unfold retroMatchRow
  cases hfind : db.mediaEmbeddings.find?
      (fun me => me.media_id == fm.media_id && me.status == "completed") with
  | none => rfl
  | some me =>
    have hmem := List.mem_of_find?_eq_some hfind
    have hpred := List.find?_some hfind
    simp only [Bool.and_eq_true, beq_iff_eq] at hpred
    have := hmal me hmem hpred.1 hpred.2
    rcases this with h | h
    · simp [h]
    · have hne : ¬ me.embeddings.isEmpty = true ∨ me.embeddings.isEmpty = true := by
        tauto
      by_cases hemp : me.embeddings.isEmpty
      · simp [hemp]
      · simp [hemp, h]

/-- **C10**: the retroactive matcher is total on malformed match rows:
a `FaceMatch` row whose media has an absent or empty completed embedding
list, or whose stored `embedding_index` is at least that list's length,
is silently skipped — left unmatched and unmodified, with no row created
or deleted — in both the single-event and all-events variants (modelled
as total functions: no exception path exists). -/
theorem retro_matchers_skip_malformed_rows
    (dist : Vec → Vec → ℚ) (db : DB) (user_id event_id : Nat) (t : ℚ)
    (i : Nat) (fm : FaceMatchRow)
    (hrow : db.faceMatches[i]? = some fm)
    (hmal : ∀ me ∈ db.mediaEmbeddings,
        me.media_id = fm.media_id → me.status = "completed" →
          me.embeddings = [] ∨ me.embeddings.length ≤ fm.embedding_index) :
    (retroactive_match_user_in_event dist db user_id event_id t).faceMatches[i]?
      = some fm ∧
    (retroactive_match_all_events dist db user_id t).faceMatches[i]? = some fm ∧
    (retroactive_match_user_in_event dist db user_id event_id t).faceMatches.length
      = db.faceMatches.length ∧
    (retroactive_match_all_events dist db user_id t).faceMatches.length
      = db.faceMatches.length := by
  constructor
  · unfold retroactive_match_user_in_event
    cases hue : userProfileEmbeddingRow db user_id with
    | none => simpa using hrow
    | some ue =>
      by_cases hemp : ue.embeddings.isEmpty
      · simpa [hemp] using hrow
      · simp only [hemp, Bool.false_eq_true, if_false, if_neg, List.getElem?_map, hrow,
          Option.map_some]
        simp [retroMatchRow_malformed dist t user_id _ db fm hmal]
  constructor
  · unfold retroactive_match_all_events
    cases hue : userProfileEmbeddingRow db user_id with
    | none => simpa using hrow
    | some ue =>
      by_cases hemp : ue.embeddings.isEmpty
      · simpa [hemp] using hrow
      · by_cases hev : (approvedEventIds db user_id).isEmpty
        · simpa [hemp, hev] using hrow
        · simp only [hemp, hev, Bool.false_eq_true, if_false, List.getElem?_map, hrow,
            Option.map_some]
          simp [retroMatchRow_malformed dist t user_id _ db fm hmal]
  constructor
  · unfold retroactive_match_user_in_event
    cases hue : userProfileEmbeddingRow db user_id with
    | none => simp
    | some ue =>
      by_cases hemp : ue.embeddings.isEmpty <;> simp [hemp]
  · unfold retroactive_match_all_events
    cases hue : userProfileEmbeddingRow db user_id with
    | none => simp
    | some ue =>
      by_cases hemp : ue.embeddings.isEmpty
      · simp [hemp]
      · by_cases hev : (approvedEventIds db user_id).isEmpty <;> simp [hemp, hev]

theorem argmaxGo_spec (rest : List ℚ) : ∀ (pre : List ℚ) (bi : Nat) (bv : ℚ),
    bi < pre.length → (pre ++ rest).getD bi 0 = bv →
    (∀ j < pre.length, (pre ++ rest).getD j 0 ≤ bv) →
    (∀ j < bi, (pre ++ rest).getD j 0 < bv) →
    isFirstArgmax (pre ++ rest) (argmaxGo rest pre.length bi bv) := by
  induction rest with
  | nil =>
    intro pre bi bv hbi hval hle hlt
    simp only [argmaxGo]
    refine ⟨by simpa using hbi, ?_, ?_⟩
    · intro j hj
      rw [hval]
      exact hle j (by simpa using hj)
    · intro j hj
      rw [hval]
      exact hlt j hj
  | cons x rest ih =>
    intro pre bi bv hbi hval hle hlt
    have hx : (pre ++ x :: rest).getD pre.length 0 = x := by
      rw [List.getD_eq_getElem?_getD, List.getElem?_append_right le_rfl]
      simp
    have hassoc : pre ++ x :: rest = (pre ++ [x]) ++ rest := by simp
    have hplen : (pre ++ [x]).length = pre.length + 1 := by simp
    show isFirstArgmax (pre ++ x :: rest)
      (if bv < x then argmaxGo rest (pre.length + 1) pre.length x
       else argmaxGo rest (pre.length + 1) bi bv)
    by_cases hcmp : bv < x
    · rw [if_pos hcmp, hassoc]
      rw [hassoc] at hval hle hlt hx
      have := ih (pre ++ [x]) pre.length x
        (by simp) hx
        (by
          intro j hj
          rw [hplen] at hj
          rcases Nat.lt_succ_iff_lt_or_eq.mp hj with hj' | hj'
          · exact le_of_lt (lt_of_le_of_lt (hle j hj') hcmp)
          · subst hj'; rw [hx])
        (by
          intro j hj
          exact lt_of_le_of_lt (hle j hj) hcmp)
      simpa [hplen] using this
    · rw [if_neg hcmp, hassoc]
      rw [hassoc] at hval hle hlt hx
      have := ih (pre ++ [x]) bi bv
        (by rw [hplen]; omega) hval
        (by
          intro j hj
          rw [hplen] at hj
          rcases Nat.lt_succ_iff_lt_or_eq.mp hj with hj' | hj'
          · exact hle j hj'
          · subst hj'; rw [hx]; exact le_of_not_lt hcmp)
        hlt
      simpa [hplen] using this

/-- `argmaxIdx` returns the first index of the maximum (on non-empty
lists), exactly as `np.argmax` does. -/
theorem argmaxIdx_spec (l : List ℚ) (h : l ≠ []) : isFirstArgmax l (argmaxIdx l) := by
  cases l with
  | nil => exact absurd rfl h
  | cons x rest =>
    have := argmaxGo_spec rest [x] 0 x (by simp) (by simp) ?_ (by omega)
    · simpa using this
    · intro j hj
      simp at hj
      subst hj
      simp

/-- **C2**: for every valid unclustered embedding processed by the
incremental clusterer's loop (`clusterStep`, the function folded over the
loaded embeddings by `clusterBatchResult`): (i) when no clusters exist
yet for the event (empty local centroid list), a new cluster is created
whose centroid equals the embedding and the embedding is assigned to it;
otherwise, with `sims` the similarities of the embedding to the local
centroids, (ii) the embedding is assigned to the cluster at the first
argmax of `sims` — the first cluster in enumeration order on ties —
exactly when the best similarity reaches `threshold - 0.03` (0.65 at the
configured threshold 0.68), and (iii) otherwise a new cluster seeded at
the embedding is created and the embedding assigned to it. -/
theorem clusterStep_cases (sim : Vec → Vec → ℚ) (threshold : ℚ)
    (eventId : Option Nat) (s : ClusterBatchState) (fe : FaceEmbeddingRow)
    (hval : validate_embedding fe.embedding = true)
    (hfresh : ∀ c ∈ s.db.clusters, c.id ≠ s.db.nextClusterId) :
    (s.localCentroids = [] →
      (clusterStep sim threshold eventId s fe).db.clusters
        = s.db.clusters ++ [⟨s.db.nextClusterId, fe.embedding, none, eventId⟩] ∧
      (clusterStep sim threshold eventId s fe).db.faceEmbeddings
        = s.db.faceEmbeddings.map (fun f =>
            if f.id == fe.id then
              { f with cluster_id := some s.db.nextClusterId, status := "completed" }
            else f) ∧
      (clusterStep sim threshold eventId s fe).localCentroids
        = s.localCentroids ++ [fe.embedding] ∧
      (clusterStep sim threshold eventId s fe).localIds
        = s.localIds ++ [s.db.nextClusterId] ∧
      (clusterStep sim threshold eventId s fe).updated
        = s.updated ++ [s.db.nextClusterId]) ∧
    (s.localCentroids ≠ [] →
      isFirstArgmax (s.localCentroids.map (fun c => sim fe.embedding c))
        (argmaxIdx (s.localCentroids.map (fun c => sim fe.embedding c))) ∧
      (qsub threshold (mkRat 3 100)
          ≤ (s.localCentroids.map (fun c => sim fe.embedding c)).getD
              (argmaxIdx (s.localCentroids.map (fun c => sim fe.embedding c))) 0 →
        (clusterStep sim threshold eventId s fe).db.clusters = s.db.clusters ∧
        (clusterStep sim threshold eventId s fe).db.faceEmbeddings
          = s.db.faceEmbeddings.map (fun f =>
              if f.id == fe.id then
                { f with
                  cluster_id := some (s.localIds.getD
                    (argmaxIdx (s.localCentroids.map (fun c => sim fe.embedding c))) 0),
                  status := "completed" }
              else f) ∧
        (clusterStep sim threshold eventId s fe).localCentroids = s.localCentroids ∧
        (clusterStep sim threshold eventId s fe).localIds = s.localIds ∧
        (clusterStep sim threshold eventId s fe).updated
          = s.updated ++ [s.localIds.getD
              (argmaxIdx (s.localCentroids.map (fun c => sim fe.embedding c))) 0]) ∧
      (¬ (qsub threshold (mkRat 3 100)
            ≤ (s.localCentroids.map (fun c => sim fe.embedding c)).getD
                (argmaxIdx (s.localCentroids.map (fun c => sim fe.embedding c))) 0) →
        (clusterStep sim threshold eventId s fe).db.clusters
          = s.db.clusters ++ [⟨s.db.nextClusterId, fe.embedding, none, eventId⟩] ∧
        (clusterStep sim threshold eventId s fe).db.faceEmbeddings
          = s.db.faceEmbeddings.map (fun f =>
              if f.id == fe.id then
                { f with cluster_id := some s.db.nextClusterId, status := "completed" }
              else f))) := by
  have hspawn :
      (spawnClusterFor eventId s fe.id fe.embedding).db.clusters
        = s.db.clusters ++ [⟨s.db.nextClusterId, fe.embedding, none, eventId⟩] ∧
      (spawnClusterFor eventId s fe.id fe.embedding).db.faceEmbeddings
        = s.db.faceEmbeddings.map (fun f =>
            if f.id == fe.id then
              { f with cluster_id := some s.db.nextClusterId, status := "completed" }
            else f) ∧
      (spawnClusterFor eventId s fe.id fe.embedding).localCentroids
        = s.localCentroids ++ [fe.embedding] ∧
      (spawnClusterFor eventId s fe.id fe.embedding).localIds
        = s.localIds ++ [s.db.nextClusterId] ∧
      (spawnClusterFor eventId s fe.id fe.embedding).updated
        = s.updated ++ [s.db.nextClusterId] := by
    have hmapid : s.db.clusters.map
        (fun c2 => if c2.id == s.db.nextClusterId then
          ({ id := s.db.nextClusterId, centroid := fe.embedding,
             event_id := eventId } : FaceClusterRow) else c2)
        = s.db.clusters := by
      have hcongr : ∀ c2 ∈ s.db.clusters,
          (if c2.id == s.db.nextClusterId then
            ({ id := s.db.nextClusterId, centroid := fe.embedding,
               event_id := eventId } : FaceClusterRow) else c2) = id c2 := by
        intro c2 hc2
        have := hfresh c2 hc2
        simp [this]
      rw [List.map_congr_left hcongr, List.map_id]
    unfold spawnClusterFor create_cluster_safely
    simp only [hval, Bool.not_true, Bool.false_eq_true, if_false]
    refine ⟨?_, ?_, by trivial, by trivial, by trivial⟩
    · simp only [assignEmbedding, List.map_append]
      rw [hmapid]
      simp
    · simp [assignEmbedding]
  unfold clusterStep
  simp only [hval, Bool.not_true, Bool.false_eq_true, if_false]
  constructor
  · intro hc
    obtain ⟨h1, h2, h3, h4, h5⟩ := hspawn
    rw [hc] at h3
    simp only [hc, List.isEmpty_nil, if_true]
    exact ⟨h1, h2, by simpa using h3, h4, h5⟩
  · intro hc
    have hisemp : s.localCentroids.isEmpty = false := by
      cases h : s.localCentroids with
      | nil => exact absurd h hc
      | cons a l => simp [h]
    simp only [hisemp, Bool.false_eq_true, if_false]
    have hmapne : s.localCentroids.map (fun c => sim fe.embedding c) ≠ [] := by
      simpa using hc
    refine ⟨argmaxIdx_spec _ hmapne, ?_, ?_⟩
    · intro hthr
      simp only [if_pos hthr]
      exact ⟨by trivial, by simp [assignEmbedding], by trivial, by trivial, by trivial⟩
    · intro hthr
      simp only [if_neg hthr]
      exact ⟨hspawn.1, hspawn.2.1⟩

/-- Witness for `clusterStep_cases` at `sC2w` (first-cluster case). -/
theorem clusterStep_cases_witness :
    validate_embedding (Vec.mk [1] true) = true ∧
    (∀ c ∈ sC2w.db.clusters, c.id ≠ sC2w.db.nextClusterId) ∧
    (clusterStep (fun _ _ => 0) (mkRat 68 100) (some 5) sC2w
        (FaceEmbeddingRow.mk 1 1 (Vec.mk [1] true) none "pending")).db.clusters
      = sC2w.db.clusters ++ [⟨sC2w.db.nextClusterId, Vec.mk [1] true, none, some 5⟩] :=
  ⟨by decide, by decide,
    ((clusterStep_cases (fun _ _ => 0) (mkRat 68 100) (some 5) sC2w
        (FaceEmbeddingRow.mk 1 1 (Vec.mk [1] true) none "pending")
        (by decide) (by decide)).1 rfl).1⟩

/-- Witness for `retro_matchers_skip_malformed_rows` at `dbC10w`. -/
theorem retro_matchers_skip_malformed_rows_witness :
    (dbC10w.faceMatches[0]? = some ⟨1, 5, 1, 3, none, none, false⟩) ∧
    ((retroactive_match_user_in_event (fun _ _ => 0) dbC10w 7 5 1).faceMatches[0]?
        = some ⟨1, 5, 1, 3, none, none, false⟩ ∧
      (retroactive_match_all_events (fun _ _ => 0) dbC10w 7 1).faceMatches[0]?
        = some ⟨1, 5, 1, 3, none, none, false⟩ ∧
      (retroactive_match_user_in_event (fun _ _ => 0) dbC10w 7 5 1).faceMatches.length
        = dbC10w.faceMatches.length ∧
      (retroactive_match_all_events (fun _ _ => 0) dbC10w 7 1).faceMatches.length
        = dbC10w.faceMatches.length) :=
  ⟨by decide,
    retro_matchers_skip_malformed_rows (fun _ _ => 0) dbC10w 7 5 1 0
      ⟨1, 5, 1, 3, none, none, false⟩ (by decide) (by decide)⟩

/-- **C6**: for every `FaceMatch` row in scope (this event, null
`matched_user_id`), the single-event retroactive matcher looks up the
face embedding at the row's stored index in its media's completed
embedding list and computes its distance to the user's reference
embedding; exactly when that distance is strictly under the threshold it
mutates the row in place — setting `matched_user_id` to the user, the
stored `distance` to the computed value, and the participant flag — and
it never creates or deletes `FaceMatch` rows and never modifies cluster
state. -/
theorem retroactive_match_user_in_event_semantics
    (dist : Vec → Vec → ℚ) (db : DB) (user_id event_id : Nat) (t : ℚ)
    (ue : MediaEmbeddingRow)
    (hue : userProfileEmbeddingRow db user_id = some ue)
    (hne : ue.embeddings ≠ []) :
    (retroactive_match_user_in_event dist db user_id event_id t).clusters
      = db.clusters ∧
    (retroactive_match_user_in_event dist db user_id event_id t).faceEmbeddings
      = db.faceEmbeddings ∧
    (retroactive_match_user_in_event dist db user_id event_id t).faceMatches.length
      = db.faceMatches.length ∧
    (∀ (i : Nat) (fm : FaceMatchRow), db.faceMatches[i]? = some fm →
      (¬ (fm.event_id = event_id ∧ fm.matched_user_id = none) →
        (retroactive_match_user_in_event dist db user_id event_id t).faceMatches[i]?
          = some fm) ∧
      (fm.event_id = event_id → fm.matched_user_id = none →
        ∀ me, db.mediaEmbeddings.find?
            (fun me' => me'.media_id == fm.media_id && me'.status == "completed")
            = some me →
          me.embeddings ≠ [] →
          fm.embedding_index < me.embeddings.length →
          ((dist (ue.embeddings.getD 0 default)
              (me.embeddings.getD fm.embedding_index default) < t →
            (retroactive_match_user_in_event dist db user_id event_id t).faceMatches[i]?
              = some { fm with
                  matched_user_id := some user_id,
                  distance := some (dist (ue.embeddings.getD 0 default)
                    (me.embeddings.getD fm.embedding_index default)),
                  is_participant := true }) ∧
           (¬ dist (ue.embeddings.getD 0 default)
                (me.embeddings.getD fm.embedding_index default) < t →
            (retroactive_match_user_in_event dist db user_id event_id t).faceMatches[i]?
              = some fm)))) := by
  have hemp : ue.embeddings.isEmpty = false := by
    cases h : ue.embeddings with
    | nil => exact absurd h hne
    | cons a l => simp [h]
  unfold retroactive_match_user_in_event
  rw [hue]
  simp only [hemp, Bool.false_eq_true, if_false]
  refine ⟨by trivial, by trivial, by simp, ?_⟩
  intro i fm hrow
  constructor
  · intro hout
    simp only [List.getElem?_map, hrow, Option.map_some']
    have hcond : (fm.event_id == event_id && fm.matched_user_id == none) = false := by
      rcases Decidable.em (fm.event_id = event_id) with h1 | h1 <;>
        rcases Decidable.em (fm.matched_user_id = none) with h2 | h2 <;>
          simp [h1, h2] at hout ⊢
    simp only [hcond, Bool.false_eq_true, if_false]
  · intro h1 h2 me hfind hme hidx
    have hcond : (fm.event_id == event_id && fm.matched_user_id == none) = true := by
      simp [h1, h2]
    have hmeemp : me.embeddings.isEmpty = false := by
      cases h : me.embeddings with
      | nil => exact absurd h hme
      | cons a l => simp [h]
    have hlt : ¬ me.embeddings.length ≤ fm.embedding_index := by omega
    constructor
    · intro hd
      simp only [List.getD_eq_getElem?_getD] at hd
      simp only [List.getElem?_map, hrow, Option.map_some', hcond, if_true]
      unfold retroMatchRow
      simp only [hfind]
      simp [hmeemp, hlt, hd, le_of_lt]
    · intro hd
      simp only [List.getD_eq_getElem?_getD] at hd
      simp only [List.getElem?_map, hrow, Option.map_some', hcond, if_true]
      unfold retroMatchRow
      simp only [hfind]
      simp [hmeemp, hlt, hd]

/-- Witness for `retroactive_match_user_in_event_semantics` at `dbC6w`,
with the true cosine distance as the distance function. -/
theorem retroactive_match_user_in_event_semantics_witness :
    userProfileEmbeddingRow dbC6w 7
      = some (MediaEmbeddingRow.mk 10 [Vec.mk [1, 0] true] "completed") ∧
    (MediaEmbeddingRow.mk 10 [Vec.mk [1, 0] true] "completed").embeddings ≠ [] ∧
    (retroactive_match_user_in_event cosineDist dbC6w 7 5 (mkRat 6 10)).clusters
      = dbC6w.clusters :=
  ⟨by decide, by decide,
    (retroactive_match_user_in_event_semantics cosineDist dbC6w 7 5 (mkRat 6 10)
      (MediaEmbeddingRow.mk 10 [Vec.mk [1, 0] true] "completed")
      (by decide) (by decide)).1⟩

/-- Folding preserves any projection each step preserves. -/
theorem foldl_fixed {σ α β : Type _} (g : σ → β) (f : σ → α → σ)
    (h : ∀ s a, g (f s a) = g s) (l : List α) (s : σ) :
    g (l.foldl f s) = g s := by
  induction l generalizing s with
  | nil => rfl
  | cons x xs ih => rw [List.foldl_cons, ih, h]

theorem update_cluster_centroid_media (db : DB) (cid : Nat) :
    (update_cluster_centroid db cid).media = db.media := by
  unfold update_cluster_centroid
  cases db.clusters.find? (fun c => c.id == cid) with
  | none => rfl
  | some c =>
    dsimp only
    split_ifs <;> rfl

theorem update_cluster_centroid_faceEmbeddings (db : DB) (cid : Nat) :
    (update_cluster_centroid db cid).faceEmbeddings = db.faceEmbeddings := by
  unfold update_cluster_centroid
  cases db.clusters.find? (fun c => c.id == cid) with
  | none => rfl
  | some c =>
    dsimp only
    split_ifs <;> rfl

theorem update_cluster_centroid_usages (db : DB) (cid : Nat) :
    (update_cluster_centroid db cid).usages = db.usages := by
  unfold update_cluster_centroid
  cases db.clusters.find? (fun c => c.id == cid) with
  | none => rfl
  | some c =>
    dsimp only
    split_ifs <;> rfl

theorem mergeStepJ_media (sim : Vec → Vec → ℚ) (t : ℚ) (snap : List FaceClusterRow)
    (i : Nat) (st : MergeState) (j : Nat) :
    (mergeStepJ sim t snap i st j).db.media = st.db.media := by
  unfold mergeStepJ
  dsimp only
  split_ifs <;> rfl

theorem mergeStepI_media (sim : Vec → Vec → ℚ) (t : ℚ) (snap : List FaceClusterRow)
    (st : MergeState) (i : Nat) :
    (mergeStepI sim t snap st i).db.media = st.db.media := by
  unfold mergeStepI
  dsimp only
  have hfold := foldl_fixed (fun st' : MergeState => st'.db.media)
    (mergeStepJ sim t snap i) (fun st' j => mergeStepJ_media sim t snap i st' j)
    (List.range' (i + 1) (snap.length - (i + 1))) st
  split_ifs
  · rfl
  · exact hfold
  · rw [update_cluster_centroid_media]
    exact hfold

theorem merge_similar_clusters_media (sim : Vec → Vec → ℚ) (db : DB)
    (event_id : Nat) (t : ℚ) :
    (merge_similar_clusters sim db event_id t).media = db.media := by
  unfold merge_similar_clusters merge_pass
  dsimp only
  split_ifs <;>
    first
      | rfl
      | exact foldl_fixed (fun st : MergeState => st.db.media)
          (mergeStepI sim t _) (fun st i => mergeStepI_media sim t _ st i) _ _

theorem clusterStep_media (sim : Vec → Vec → ℚ) (t : ℚ) (eventId : Option Nat)
    (s : ClusterBatchState) (fe : FaceEmbeddingRow) :
    (clusterStep sim t eventId s fe).db.media = s.db.media := by
  have hspawn : ∀ (s' : ClusterBatchState) (feId : Nat) (v : Vec),
      (spawnClusterFor eventId s' feId v).db.media = s'.db.media := by
    intro s' feId v
    unfold spawnClusterFor create_cluster_safely
    dsimp only
    split_ifs <;> rfl
  unfold clusterStep
  dsimp only
  split_ifs <;> first | rfl | exact hspawn ..

theorem cluster_embeddings_for_media_media (sim : Vec → Vec → ℚ) (db : DB)
    (media_id : Nat) (t : ℚ) :
    (cluster_embeddings_for_media sim db media_id t).media = db.media := by
  unfold cluster_embeddings_for_media
  dsimp only
  split_ifs with h1
  · rfl
  · have hbatch : (clusterBatchResult sim db media_id t).db.media = db.media := by
      unfold clusterBatchResult
      exact foldl_fixed (fun s : ClusterBatchState => s.db.media)
        (clusterStep sim t (clusterEventId db media_id))
        (fun s fe => clusterStep_media sim t _ s fe) _ _
    have hupd : ((clusterBatchResult sim db media_id t).updated.dedup.foldl
        update_cluster_centroid (clusterBatchResult sim db media_id t).db).media
        = db.media := by
      rw [foldl_fixed (fun d : DB => d.media) update_cluster_centroid
        (fun d c => update_cluster_centroid_media d c) _ _]
      exact hbatch
    cases hev : clusterEventId db media_id with
    | none => exact hupd
    | some eid =>
      dsimp only
      split_ifs
      · rw [merge_similar_clusters_media]
        exact hupd
      · exact hupd

theorem match_clusters_to_users_media (sim : Vec → Vec → ℚ) (db : DB)
    (media_id : Nat) (t : ℚ) :
    (match_clusters_to_users sim db media_id t).media = db.media := by
  unfold match_clusters_to_users
  dsimp only
  split_ifs with h1
  · rfl
  · refine foldl_fixed (fun d : DB => d.media) _ ?_ _ _
    intro d cid
    unfold matchClusterStep
    cases d.clusters.find? (fun c => c.id == cid) with
    | none => rfl
    | some cluster =>
      dsimp only
      split_ifs <;>
        first
          | rfl
          | (cases (bestUserFor sim cluster.centroid
              (buildUserEmbeddings (userProfileRows db))).1 <;>
              dsimp only <;> split_ifs <;> rfl)

/-- `addFaceRows` inserts exactly the counted rows and touches nothing
else: the face-embedding table grows by `created` rows, `created` counts
exactly the faces with a present, non-empty, valid embedding, and the
media table is untouched. -/
theorem addFaceRows_spec (db : DB) (media_id : Nat) (fs : List FaceRec) :
    (addFaceRows db media_id fs).1.faceEmbeddings.length
      = db.faceEmbeddings.length + (addFaceRows db media_id fs).2 ∧
    (addFaceRows db media_id fs).2
      = (fs.filter (fun f =>
          match f.embedding with
          | none => false
          | some emb => !emb.entries.isEmpty && validate_embedding emb)).length ∧
    (addFaceRows db media_id fs).1.media = db.media := by
  suffices h : ∀ (fs : List FaceRec) (p : DB × Nat),
      (fs.foldl (addFaceStep media_id) p).1.faceEmbeddings.length + p.2
          = p.1.faceEmbeddings.length + (fs.foldl (addFaceStep media_id) p).2 ∧
      (fs.foldl (addFaceStep media_id) p).2 = p.2 + (fs.filter (fun f =>
          match f.embedding with
          | none => false
          | some emb => !emb.entries.isEmpty && validate_embedding emb)).length ∧
      (fs.foldl (addFaceStep media_id) p).1.media = p.1.media by
    obtain ⟨h1, h2, h3⟩ := h fs (db, 0)
    exact ⟨by simpa [addFaceRows] using h1, by simpa [addFaceRows] using h2,
      by simpa [addFaceRows] using h3⟩
  intro fs
  induction fs with
  | nil => intro p; exact ⟨by simp, by simp, rfl⟩
  | cons f rest ih =>
    intro p
    rw [List.foldl_cons]
    obtain ⟨i1, i2, i3⟩ := ih (addFaceStep media_id p f)
    have hstep :
        ((addFaceStep media_id p f).1.faceEmbeddings.length + p.2
            = p.1.faceEmbeddings.length + (addFaceStep media_id p f).2) ∧
        ((addFaceStep media_id p f).2
            = p.2 + (if (match f.embedding with
                | none => false
                | some emb => !emb.entries.isEmpty && validate_embedding emb) then 1 else 0)) ∧
        (addFaceStep media_id p f).1.media = p.1.media := by
      cases hemb : f.embedding with
      | none =>
        refine ⟨?_, ?_, ?_⟩ <;> simp [addFaceStep, hemb]
      | some emb =>
        by_cases he : emb.entries.isEmpty
        · refine ⟨?_, ?_, ?_⟩ <;> simp [addFaceStep, hemb, he]
        · by_cases hv : validate_embedding emb
          · refine ⟨?_, ?_, ?_⟩ <;> simp [addFaceStep, hemb, he, hv] <;> omega
          · have hv' : validate_embedding emb = false := by
              cases hvv : validate_embedding emb
              · rfl
              · exact absurd hvv hv
            refine ⟨?_, ?_, ?_⟩ <;> simp [addFaceStep, hemb, he, hv']
    refine ⟨by omega, ?_, by rw [i3, hstep.2.2]⟩
    rw [i2, hstep.2.1, List.filter_cons]
    by_cases hc : (match f.embedding with
        | none => false
        | some emb => !emb.entries.isEmpty && validate_embedding emb)
    · simp [hc] <;> omega
    · have hc' : (fun f : FaceRec => match f.embedding with
          | none => false
          | some emb => !emb.entries.isEmpty && validate_embedding emb) f = false := by
        simpa using hc
      simp [hc'] <;> omega

/-- **C9** (amended): when the embedding service responds with an error
object, the extractor creates zero `FaceEmbedding` rows and leaves the
whole state — the media's stored face count included — unchanged (it
notifies and returns before the `media.face_count = created` write); on
a list response it stores one row per valid face and sets the media's
face count to exactly the number of rows stored by this extraction. -/
theorem generate_embeddings_face_count (sim : Vec → Vec → ℚ) (db : DB)
    (media_id : Nat) :
    (∀ msg, generate_embeddings_background sim db media_id (.errorResp msg) = db) ∧
    (∀ fs : List FaceRec, mediaExists db media_id = true →
      (addFaceRows db media_id fs).1.faceEmbeddings.length
        = db.faceEmbeddings.length + (addFaceRows db media_id fs).2 ∧
      (addFaceRows db media_id fs).2
        = (fs.filter (fun f =>
            match f.embedding with
            | none => false
            | some emb => !emb.entries.isEmpty && validate_embedding emb)).length ∧
      ((generate_embeddings_background sim db media_id (.faces fs)).media.find?
          (fun m => m.id == media_id)).map (·.face_count)
        = some (addFaceRows db media_id fs).2) := by
  constructor
  · intro msg
    unfold generate_embeddings_background
    split_ifs <;> rfl
  · intro fs hex
    obtain ⟨h1, h2, h3⟩ := addFaceRows_spec db media_id fs
    refine ⟨h1, h2, ?_⟩
    have hmedia : (generate_embeddings_background sim db media_id (.faces fs)).media
        = (addFaceRows db media_id fs).1.media.map (fun m =>
            if m.id == media_id then
              { m with face_count := (addFaceRows db media_id fs).2 } else m) := by
      unfold generate_embeddings_background
      simp only [hex, Bool.not_true, Bool.false_eq_true, if_false]
      rw [match_clusters_to_users_media, cluster_embeddings_for_media_media]
    rw [hmedia, h3]
    have hsome : (db.media.find? (fun m => m.id == media_id)).isSome := by
      unfold mediaExists at hex
      rw [List.any_eq_true] at hex
      obtain ⟨m, hm, hmid⟩ := hex
      exact List.find?_isSome.mpr ⟨m, hm, hmid⟩
    obtain ⟨m, hm⟩ := Option.isSome_iff_exists.mp hsome
    have hmid := List.find?_some hm
    rw [List.find?_map]
    have hcomp : (fun m' : MediaRow => m'.id == media_id) ∘ (fun m =>
        if m.id == media_id then
          { m with face_count := (addFaceRows db media_id fs).2 } else m)
        = fun m' : MediaRow => m'.id == media_id := by
      funext m'
      by_cases h : m'.id = media_id <;> simp [h]
    rw [hcomp, hm]
    have hmeq : m.id = media_id := by simpa using hmid
    simp [hmeq]

/-- **C9** (counterexample): with a media row whose stored face count is
5 (say, from an earlier successful extraction), an `{error: "no face
detected"}` response creates zero `FaceEmbedding` rows but does NOT set
the media's detected-face count to 0 — the handler returns before the
`media.face_count = created` write, so the count stays 5. -/
theorem generate_embeddings_error_keeps_old_face_count :
    (generate_embeddings_background (fun _ _ => 0)
        { media := [MediaRow.mk 1 5] } 1 (.errorResp "no face detected"))
      = ({ media := [MediaRow.mk 1 5] } : DB) ∧
    ((generate_embeddings_background (fun _ _ => 0)
        { media := [MediaRow.mk 1 5] } 1
        (.errorResp "no face detected")).faceEmbeddings.length = 0) ∧
    ((generate_embeddings_background (fun _ _ => 0)
        { media := [MediaRow.mk 1 5] } 1
        (.errorResp "no face detected")).media.map (·.face_count)) = [5] ∧
    ([5] : List Nat) ≠ [0] := by
  decide

/-- Witness for `generate_embeddings_face_count` at `dbC9w`: one valid
face stored, face count set to 1. -/
theorem generate_embeddings_face_count_witness :
    mediaExists dbC9w 1 = true ∧
    (((generate_embeddings_background (fun _ _ => 0) dbC9w 1
        (.faces [FaceRec.mk (some (Vec.mk [1] true))])).media.find?
        (fun m => m.id == 1)).map (·.face_count)
      = some (addFaceRows dbC9w 1 [FaceRec.mk (some (Vec.mk [1] true))]).2) :=
  ⟨by decide, ((generate_embeddings_face_count (fun _ _ => 0) dbC9w 1).2
      [FaceRec.mk (some (Vec.mk [1] true))] (by decide)).2.2⟩

/-- Characterization of `update_cluster_centroid`: it either leaves the
state unchanged or rewrites exactly the centroids of the rows with the
given id, touching no other field and no other table. -/
theorem update_cluster_centroid_cases (db : DB) (cid : Nat) :
    update_cluster_centroid db cid = db ∨
    ∃ v : Vec, update_cluster_centroid db cid
      = { db with clusters := db.clusters.map fun c =>
            if c.id == cid then { c with centroid := v } else c } := by
  unfold update_cluster_centroid
  cases db.clusters.find? (fun c => c.id == cid) with
  | none => exact Or.inl rfl
  | some c =>
    dsimp only
    split_ifs <;> first | exact Or.inl rfl | exact Or.inr ⟨_, rfl⟩

/-- Characterization of the create-and-assign block: with a valid seed
and a fresh next id it appends one cluster seeded at `v`, bumps the id
counter, assigns the embedding, and extends the local lists. -/
theorem spawnClusterFor_spec (eventId : Option Nat) (s : ClusterBatchState)
    (feId : Nat) (v : Vec)
    (hval : validate_embedding v = true)
    (hfresh : ∀ c ∈ s.db.clusters, c.id ≠ s.db.nextClusterId) :
    spawnClusterFor eventId s feId v =
      { db := { s.db with
          clusters := s.db.clusters ++ [⟨s.db.nextClusterId, v, none, eventId⟩],
          faceEmbeddings := s.db.faceEmbeddings.map (fun f =>
            if f.id == feId then
              { f with cluster_id := some s.db.nextClusterId, status := "completed" }
            else f),
          nextClusterId := s.db.nextClusterId + 1 },
        localIds := s.localIds ++ [s.db.nextClusterId],
        localCentroids := s.localCentroids ++ [v],
        updated := s.updated ++ [s.db.nextClusterId] } := by
  unfold spawnClusterFor create_cluster_safely
  simp only [hval, Bool.not_true, Bool.false_eq_true, if_false]
  have hmap : (s.db.clusters ++
      [({ id := s.db.nextClusterId, centroid := v } : FaceClusterRow)]).map
        (fun c2 => if c2.id == s.db.nextClusterId then
          ({ id := s.db.nextClusterId, centroid := v,
             event_id := eventId } : FaceClusterRow) else c2)
      = s.db.clusters ++ [⟨s.db.nextClusterId, v, none, eventId⟩] := by
    rw [List.map_append]
    congr 1
    · have : ∀ c2 ∈ s.db.clusters,
          (if c2.id == s.db.nextClusterId then
            ({ id := s.db.nextClusterId, centroid := v,
               event_id := eventId } : FaceClusterRow) else c2) = id c2 := by
        intro c2 h2
        have := hfresh c2 h2
        simp [this]
      rw [List.map_congr_left this, List.map_id]
    · simp
  simp only [assignEmbedding]
  congr 1
  simp only [hmap]

theorem spawnClusterFor_evless (db : DB) (s : ClusterBatchState)
    (feId : Nat) (v : Vec) (hinv : EvlessInv db s) :
    EvlessInv db (spawnClusterFor none s feId v) := by
  obtain ⟨ha, hb, hc, hd, hf, hg⟩ := hinv
  by_cases hval : validate_embedding v
  · have hfresh : ∀ c ∈ s.db.clusters, c.id ≠ s.db.nextClusterId := by
      intro c hcm
      have := hd c hcm
      omega
    rw [spawnClusterFor_spec none s feId v hval hfresh]
    refine ⟨?_, ?_, ?_, ?_, ?_, ?_⟩
    · intro c hcmem
      rcases List.mem_append.mp hcmem with h | h
      · exact ha c h
      · simp at h
        subst h
        exact Or.inr rfl
    · intro cid hcid
      rcases List.mem_append.mp hcid with h | h
      · obtain ⟨c, hcm, hcid', hcev⟩ := hb cid h
        exact ⟨c, List.mem_append_left _ hcm, hcid', hcev⟩
      · simp at h
        subst h
        exact ⟨_, List.mem_append_right _ (List.mem_singleton_self _), rfl, rfl⟩
    · intro cid hcid
      rcases List.mem_append.mp hcid with h | h
      · obtain ⟨c, hcm, hcid', hcev⟩ := hc cid h
        exact ⟨c, List.mem_append_left _ hcm, hcid', hcev⟩
      · simp at h
        subst h
        exact ⟨_, List.mem_append_right _ (List.mem_singleton_self _), rfl, rfl⟩
    · intro c hcmem
      rcases List.mem_append.mp hcmem with h | h
      · have := hd c h
        dsimp only
        omega
      · simp at h
        subst h
        dsimp only
        omega
    · intro i fe fe' hpre hpost
      simp only [List.getElem?_map] at hpost
      cases hcur : s.db.faceEmbeddings[i]? with
      | none => rw [hcur] at hpost; simp at hpost
      | some fecur =>
        rw [hcur] at hpost
        simp only [Option.map_some', Option.some_inj] at hpost
        by_cases hid : (fecur.id == feId) = true
        · rw [← hpost]
          simp only [hid, if_true]
          exact Or.inr ⟨_, List.mem_append_right _ (List.mem_singleton_self _), rfl, rfl⟩
        · have hid' : (fecur.id == feId) = false := by
            cases hh : fecur.id == feId
            · rfl
            · exact absurd hh hid
          rw [← hpost]
          simp only [hid', Bool.false_eq_true, if_false]
          rcases hf i fe fecur hpre hcur with h | ⟨c, hcm, hcid, hcev⟩
          · exact Or.inl h
          · exact Or.inr ⟨c, List.mem_append_left _ hcm, hcid, hcev⟩
    · simp [hg]
  · have hval' : validate_embedding v = false := by
      cases hh : validate_embedding v
      · rfl
      · exact absurd hh hval
    unfold spawnClusterFor create_cluster_safely
    simp only [hval', Bool.not_false, if_true]
    exact ⟨ha, hb, hc, hd, hf, hg⟩

theorem clusterStep_evless (sim : Vec → Vec → ℚ) (t : ℚ) (db : DB)
    (s : ClusterBatchState) (fe : FaceEmbeddingRow) (hinv : EvlessInv db s) :
    EvlessInv db (clusterStep sim t none s fe) := by
  obtain ⟨ha, hb, hc, hd, hf, hg⟩ := hinv
  unfold clusterStep
  dsimp only
  split_ifs with h1 h2 h3
  · exact ⟨ha, hb, hc, hd, hf, hg⟩
  · exact spawnClusterFor_evless db s fe.id fe.embedding ⟨ha, hb, hc, hd, hf, hg⟩
  · have hlen : s.localCentroids ≠ [] := by
      intro hh
      rw [hh] at h2
      exact h2 (by simp)
    have hmapne : (s.localCentroids.map fun c => sim fe.embedding c) ≠ [] := by
      simpa using hlen
    have hbest := (argmaxIdx_spec _ hmapne).1
    rw [List.length_map] at hbest
    have hcidmem : s.localIds.getD
        (argmaxIdx (s.localCentroids.map fun c => sim fe.embedding c)) 0
        ∈ s.localIds := by
      rw [List.getD_eq_getElem _ _ (by omega)]
      exact List.getElem_mem _
    obtain ⟨c, hcm, hcid, hcev⟩ := hb _ hcidmem
    have hcid' : c.id = (s.localIds[argmaxIdx
        (s.localCentroids.map fun c => sim fe.embedding c)]?).getD 0 := by
      simpa only [List.getD_eq_getElem?_getD] using hcid
    refine ⟨ha, hb, ?_, hd, ?_, hg⟩
    · intro cid0 hcid0
      rcases List.mem_append.mp hcid0 with h | h
      · exact hc cid0 h
      · simp at h
        subst h
        exact ⟨c, hcm, hcid', hcev⟩
    · intro i fe0 fe' hpre hpost
      simp only [assignEmbedding, List.getElem?_map] at hpost
      cases hcur : s.db.faceEmbeddings[i]? with
      | none => rw [hcur] at hpost; simp at hpost
      | some fecur =>
        rw [hcur] at hpost
        simp only [Option.map_some', Option.some_inj] at hpost
        by_cases hid : (fecur.id == fe.id) = true
        · rw [← hpost]
          simp only [hid, if_true]
          refine Or.inr ⟨c, hcm, ?_, hcev⟩
          rw [hcid]
        · have hid' : (fecur.id == fe.id) = false := by
            cases hh : fecur.id == fe.id
            · rfl
            · exact absurd hh hid
          rw [← hpost]
          simp only [hid', Bool.false_eq_true, if_false]
          exact hf i fe0 fecur hpre hcur
  · exact spawnClusterFor_evless db s fe.id fe.embedding ⟨ha, hb, hc, hd, hf, hg⟩

theorem foldl_inv {σ α : Type _} (P : σ → Prop) (f : σ → α → σ)
    (hstep : ∀ s a, P s → P (f s a)) (l : List α) (s : σ) (h : P s) :
    P (l.foldl f s) := by
  induction l generalizing s with
  | nil => exact h
  | cons x xs ih => exact ih (f s x) (hstep s x h)

theorem clusterBatchResult_evless (sim : Vec → Vec → ℚ) (t : ℚ) (db : DB)
    (media_id : Nat)
    (hwf : ∀ c ∈ db.clusters, c.id < db.nextClusterId)
    (hev : clusterEventId db media_id = none) :
    EvlessInv db (clusterBatchResult sim db media_id t) := by
  unfold clusterBatchResult
  rw [hev]
  dsimp only
  refine foldl_inv (EvlessInv db) (clusterStep sim t none)
    (fun s fe h => clusterStep_evless sim t db s fe h) _ _ ?_
  refine ⟨fun c h => Or.inl h, by simp, by simp, hwf, ?_, by simp⟩
  intro i fe fe' h1 h2
  rw [h1] at h2
  exact Or.inl (by cases h2; rfl)

theorem update_cluster_centroid_clusters_pos (d : DB) (cid : Nat) (i : Nat)
    (c' : FaceClusterRow)
    (h : (update_cluster_centroid d cid).clusters[i]? = some c') :
    ∃ c, d.clusters[i]? = some c ∧ c'.id = c.id ∧ c'.event_id = c.event_id := by
  rcases update_cluster_centroid_cases d cid with hEq | ⟨v, hEq⟩
  · rw [hEq] at h
    exact ⟨c', h, rfl, rfl⟩
  · rw [hEq] at h
    dsimp only at h
    rw [List.getElem?_map] at h
    cases hc : d.clusters[i]? with
    | none => rw [hc] at h; simp at h
    | some c =>
      rw [hc] at h
      simp only [Option.map_some', Option.some_inj] at h
      refine ⟨c, rfl, ?_, ?_⟩ <;> (rw [← h]; split_ifs <;> rfl)

theorem update_cluster_centroid_clusters_pos' (d : DB) (cid : Nat) (i : Nat)
    (c : FaceClusterRow) (h : d.clusters[i]? = some c) :
    ∃ c', (update_cluster_centroid d cid).clusters[i]? = some c' ∧
      c'.id = c.id ∧ c'.event_id = c.event_id := by
  rcases update_cluster_centroid_cases d cid with hEq | ⟨v, hEq⟩
  · rw [hEq]
    exact ⟨c, h, rfl, rfl⟩
  · rw [hEq]
    dsimp only
    rw [List.getElem?_map, h]
    refine ⟨_, rfl, ?_, ?_⟩ <;> (dsimp only; split_ifs <;> rfl)

theorem updFold_clusters_pos (ids : List Nat) (d : DB) (i : Nat)
    (c' : FaceClusterRow)
    (h : (ids.foldl update_cluster_centroid d).clusters[i]? = some c') :
    ∃ c, d.clusters[i]? = some c ∧ c'.id = c.id ∧ c'.event_id = c.event_id := by
  induction ids generalizing d with
  | nil => exact ⟨c', h, rfl, rfl⟩
  | cons a l ih =>
    obtain ⟨c1, h1, h2, h3⟩ := ih (update_cluster_centroid d a) h
    obtain ⟨c, hc, h4, h5⟩ := update_cluster_centroid_clusters_pos d a i c1 h1
    exact ⟨c, hc, h2.trans h4, h3.trans h5⟩

theorem updFold_clusters_pos_conv (ids : List Nat) (d : DB) (i : Nat)
    (c : FaceClusterRow) (h : d.clusters[i]? = some c) :
    ∃ c', (ids.foldl update_cluster_centroid d).clusters[i]? = some c' ∧
      c'.id = c.id ∧ c'.event_id = c.event_id := by
  induction ids generalizing d c with
  | nil => exact ⟨c, h, rfl, rfl⟩
  | cons a l ih =>
    obtain ⟨c1, h1, h2, h3⟩ := update_cluster_centroid_clusters_pos' d a i c h
    obtain ⟨c', hc', h4, h5⟩ := ih (update_cluster_centroid d a) c1 h1
    exact ⟨c', hc', h4.trans h2, h5.trans h3⟩

theorem updFold_faceEmbeddings (ids : List Nat) (d : DB) :
    (ids.foldl update_cluster_centroid d).faceEmbeddings = d.faceEmbeddings :=
  foldl_fixed DB.faceEmbeddings update_cluster_centroid
    (fun d cid => update_cluster_centroid_faceEmbeddings d cid) ids d

theorem eventFaceRows_event_scoped (db : DB) (eid : Nat) (fe : FaceEmbeddingRow)
    (h : fe ∈ eventFaceRows db eid) :
    ∃ u ∈ db.usages, u.media_id = fe.media_id ∧
      u.owner_type = ContentOwnerType.event ∧ u.owner_id = eid ∧
      isProfileUsage u.usage_type = false := by
  unfold eventFaceRows at h
  simp only [List.mem_flatMap, List.mem_filter, List.mem_map] at h
  obtain ⟨fe0, hfe0, m, hm, u, ⟨hu, hcond⟩, hfeeq⟩ := h
  subst hfeeq
  simp only [Bool.and_eq_true, beq_iff_eq, Bool.not_eq_true'] at hcond
  exact ⟨u, hu, hcond.1.1.1, hcond.1.1.2, hcond.1.2, hcond.2⟩

theorem mem_of_getElem?_eq {α : Type _} {l : List α} {i : Nat} {a : α}
    (h : l[i]? = some a) : a ∈ l := by
  obtain ⟨hlt, hEq⟩ := List.getElem?_eq_some.mp h
  exact hEq ▸ List.getElem_mem _

/-- **C7** (amended): embeddings of enrollment/profile-picture media *are*
clustered by the incremental clusterer (the extractor runs it on every
media), but only into event-less clusters: when the media is not
event-owned, every cluster of the result either carries a pre-existing
cluster's id and event, or has `event_id = none`, and every embedding's
`cluster_id` is either unchanged or points to an event-less cluster;
the batch re-clusterer, by contrast, loads only faces of media with an
event-scoped non-profile usage. -/
theorem profile_media_embeddings_eventless (sim : Vec → Vec → ℚ) (t : ℚ)
    (db : DB) (media_id : Nat)
    (hwf : ∀ c ∈ db.clusters, c.id < db.nextClusterId)
    (hev : clusterEventId db media_id = none) :
    (∀ c' ∈ (cluster_embeddings_for_media sim db media_id t).clusters,
        (∃ c ∈ db.clusters, c'.id = c.id ∧ c'.event_id = c.event_id) ∨
        c'.event_id = none) ∧
    (∀ (i : Nat) (fe fe' : FaceEmbeddingRow),
        db.faceEmbeddings[i]? = some fe →
        (cluster_embeddings_for_media sim db media_id t).faceEmbeddings[i]?
          = some fe' →
        fe'.cluster_id = fe.cluster_id ∨
          ∃ c' ∈ (cluster_embeddings_for_media sim db media_id t).clusters,
            fe'.cluster_id = some c'.id ∧ c'.event_id = none) ∧
    (∀ (eid : Nat) (fe : FaceEmbeddingRow), fe ∈ eventFaceRows db eid →
        ∃ u ∈ db.usages, u.media_id = fe.media_id ∧
          u.owner_type = ContentOwnerType.event ∧ u.owner_id = eid ∧
          isProfileUsage u.usage_type = false) := by
  by_cases hemp : (unclusteredOf db media_id).isEmpty
  · have hid : cluster_embeddings_for_media sim db media_id t = db := by
      unfold cluster_embeddings_for_media
      rw [if_pos hemp]
    rw [hid]
    refine ⟨fun c' hc' => Or.inl ⟨c', hc', rfl, rfl⟩, ?_,
      fun eid fe h => eventFaceRows_event_scoped db eid fe h⟩
    intro i fe fe' h1 h2
    rw [h1] at h2
    exact Or.inl (by cases h2; rfl)
  · obtain ⟨ha, hb, hc, hd, hf, hg⟩ :=
      clusterBatchResult_evless sim t db media_id hwf hev
    have hred : cluster_embeddings_for_media sim db media_id t
        = (clusterBatchResult sim db media_id t).updated.dedup.foldl
            update_cluster_centroid (clusterBatchResult sim db media_id t).db := by
      unfold cluster_embeddings_for_media
      rw [if_neg hemp]
      dsimp only
      rw [hev]
    rw [hred]
    refine ⟨?_, ?_, fun eid fe h => eventFaceRows_event_scoped db eid fe h⟩
    · intro c' hc'
      obtain ⟨i, hi⟩ := List.mem_iff_getElem?.mp hc'
      obtain ⟨c, hci, hcid, hcev⟩ := updFold_clusters_pos _ _ i c' hi
      rcases ha c (mem_of_getElem?_eq hci) with hmem | hnone
      · exact Or.inl ⟨c, hmem, hcid, hcev⟩
      · exact Or.inr (hcev.trans hnone)
    · intro i fe fe' h1 h2
      rw [updFold_faceEmbeddings] at h2
      rcases hf i fe fe' h1 h2 with hsame | ⟨c, hcm, hcid, hcev⟩
      · exact Or.inl hsame
      · obtain ⟨j, hj⟩ := List.mem_iff_getElem?.mp hcm
        obtain ⟨c', hc'j, hcid', hcev'⟩ := updFold_clusters_pos_conv _ _ j c hj
        refine Or.inr ⟨c', mem_of_getElem?_eq hc'j, ?_, hcev'.trans hcev⟩
        rw [hcid, hcid']

/-- Embedding a profile-picture upload *does* set its embeddings'
`cluster_id`: the extractor runs the incremental clusterer on enrollment
media too, producing an event-less cluster that both faces join. -/
theorem profile_media_embedding_gets_clustered :
    dbC7x.usages
      = [⟨1, ContentOwnerType.user, 9, MediaUsageType.profile_picture⟩] ∧
    (generate_embeddings_background cosineSim dbC7x 1
        (EmbedResponse.faces [⟨some ⟨[1], true⟩⟩])).faceEmbeddings
      = [⟨1, 1, ⟨[1], true⟩, some 1, "completed"⟩,
         ⟨2, 1, ⟨[1], true⟩, some 1, "completed"⟩] ∧
    (generate_embeddings_background cosineSim dbC7x 1
        (EmbedResponse.faces [⟨some ⟨[1], true⟩⟩])).clusters
      = [⟨1, ⟨[1], true⟩, none, none⟩] := by decide

/-- Witness for `profile_media_embeddings_eventless` at `dbC7x`. -/
theorem profile_media_embeddings_eventless_witness :
    (∀ c ∈ dbC7x.clusters, c.id < dbC7x.nextClusterId) ∧
    clusterEventId dbC7x 1 = none ∧
    (∀ c' ∈ (cluster_embeddings_for_media cosineSim dbC7x 1
        (mkRat 68 100)).clusters,
      (∃ c ∈ dbC7x.clusters, c'.id = c.id ∧ c'.event_id = c.event_id) ∨
      c'.event_id = none) :=
  ⟨by decide, by decide,
    (profile_media_embeddings_eventless cosineSim (mkRat 68 100) dbC7x 1
      (by decide) (by decide)).1⟩

theorem foldl_id_of {σ α : Type _} {f : σ → α → σ} {l : List α}
    (h : ∀ s, ∀ a ∈ l, f s a = s) : ∀ s : σ, l.foldl f s = s := by
  induction l with
  | nil => intro s; rfl
  | cons x xs ih =>
    intro s
    rw [List.foldl_cons, h s x (List.mem_cons_self x xs)]
    exact ih (fun s a ha => h s a (List.mem_cons_of_mem x ha)) s

theorem update_cluster_centroid_cluster_ids (d : DB) (cid : Nat) :
    (update_cluster_centroid d cid).clusters.map (·.id) = d.clusters.map (·.id) := by
  rcases update_cluster_centroid_cases d cid with hEq | ⟨v, hEq⟩
  · rw [hEq]
  · rw [hEq]
    dsimp only
    rw [List.map_map]
    apply List.map_congr_left
    intro c _
    dsimp only [Function.comp]
    split_ifs <;> rfl

/-- **C4** (amended): a merge pass over an event whose valid cluster
centroids are pairwise *below* the merge threshold deletes no cluster:
the cluster id list (hence the count) is unchanged.  Idempotence in
general fails because a merge recomputes the survivor's centroid as the
member mean, which can lift a pair above the threshold for the next run. -/
theorem merge_pass_below_threshold_preserves (sim : Vec → Vec → ℚ) (db : DB)
    (event_id : Nat) (t : ℚ)
    (hpair : ∀ j, j <
        ((db.clusters.filter (fun c => c.event_id == some event_id)).filter
          (fun c => validate_embedding c.centroid)).length →
      ∀ i, i < j →
        sim (((db.clusters.filter (fun c => c.event_id == some event_id)).filter
              (fun c => validate_embedding c.centroid)).getD i default).centroid
            (((db.clusters.filter (fun c => c.event_id == some event_id)).filter
              (fun c => validate_embedding c.centroid)).getD j default).centroid
          < t) :
    (merge_similar_clusters sim db event_id t).clusters.map (·.id)
      = db.clusters.map (·.id) := by
  unfold merge_similar_clusters merge_pass
  dsimp only
  split_ifs with h1 h2
  · rfl
  · rfl
  · set snap := (db.clusters.filter (fun c => c.event_id == some event_id)).filter
      (fun c => validate_embedding c.centroid) with hsnap
    have hstep : ∀ (st : MergeState) (i : Nat),
        (st.merged = [] ∧ st.db.clusters.map (·.id) = db.clusters.map (·.id)) →
        ((mergeStepI sim t snap st i).merged = [] ∧
          (mergeStepI sim t snap st i).db.clusters.map (·.id)
            = db.clusters.map (·.id)) := by
      intro st i ⟨hm, hids⟩
      unfold mergeStepI
      have hci : st.merged.contains i = false := by rw [hm]; rfl
      simp only [hci, Bool.false_eq_true, if_false]
      have hinner : (List.range' (i + 1) (snap.length - (i + 1))).foldl
          (mergeStepJ sim t snap i) st = st := by
        apply foldl_id_of
        intro s j hj
        have hjb := List.mem_range'_1.mp hj
        unfold mergeStepJ
        have hlt : sim (snap.getD i default).centroid (snap.getD j default).centroid < t :=
          hpair j (by omega) i (by omega)
        rw [if_neg (not_le.mpr hlt)]
        split_ifs <;> rfl
      rw [hinner]
      simp only [hci, Bool.false_eq_true, if_false]
      refine ⟨hm, ?_⟩
      rw [update_cluster_centroid_cluster_ids, hids]
    have := foldl_inv
      (fun st : MergeState => st.merged = [] ∧
        st.db.clusters.map (·.id) = db.clusters.map (·.id))
      (mergeStepI sim t snap) hstep (List.range snap.length)
      ⟨db, [], []⟩ ⟨rfl, rfl⟩
    exact this.2

/-- `merge_similar_clusters` is not idempotent: on the well-formed event
state `dbC4` the first run leaves 2 clusters, and a second run with no
new data merges again, leaving 1. -/
theorem merge_similar_clusters_not_idempotent :
    DBwf dbC4 ∧
    (merge_similar_clusters cosineSim dbC4 5 (mkRat 72 100)).clusters.length = 2 ∧
    (merge_similar_clusters cosineSim
        (merge_similar_clusters cosineSim dbC4 5 (mkRat 72 100)) 5
        (mkRat 72 100)).clusters.length = 1 := by decide

/-- Witness for `merge_pass_below_threshold_preserves` at `dbC4two`. -/
theorem merge_pass_below_threshold_preserves_witness :
    (∀ j, j <
        ((dbC4two.clusters.filter (fun c => c.event_id == some 5)).filter
          (fun c => validate_embedding c.centroid)).length →
      ∀ i, i < j →
        cosineSim
            (((dbC4two.clusters.filter (fun c => c.event_id == some 5)).filter
              (fun c => validate_embedding c.centroid)).getD i default).centroid
            (((dbC4two.clusters.filter (fun c => c.event_id == some 5)).filter
              (fun c => validate_embedding c.centroid)).getD j default).centroid
          < mkRat 72 100) ∧
    (merge_similar_clusters cosineSim dbC4two 5 (mkRat 72 100)).clusters.map (·.id)
      = dbC4two.clusters.map (·.id) :=
  ⟨by decide,
    merge_pass_below_threshold_preserves cosineSim dbC4two 5 (mkRat 72 100)
      (by decide)⟩

theorem foldl_inv_mem {σ α : Type _} (P : σ → Prop) (f : σ → α → σ)
    (l : List α) (hstep : ∀ s, ∀ a ∈ l, P s → P (f s a)) (s : σ) (h : P s) :
    P (l.foldl f s) := by
  induction l generalizing s with
  | nil => exact h
  | cons x xs ih =>
    exact ih (fun s a ha hp => hstep s a (List.mem_cons_of_mem x ha) hp)
      (f s x) (hstep s x (List.mem_cons_self x xs) h)

theorem MergeLogInv.mono {snap : List FaceClusterRow} {s s' : Nat}
    {st : MergeState} (h : MergeLogInv snap s st) (hs : s ≤ s') :
    MergeLogInv snap s' st := by
  obtain ⟨h1, h2, h3⟩ := h
  refine ⟨h1, h2, fun p hp => ?_⟩
  obtain ⟨ii, ha, hb, hc, hd⟩ := h3 p hp
  exact ⟨ii, ha, by omega, hc, hd⟩

theorem mergeStepJ_loginv (sim : Vec → Vec → ℚ) (t : ℚ)
    (snap : List FaceClusterRow) (hinj : SnapInj snap) (i : Nat)
    (st : MergeState) (j : Nat) (hij : i < j) (hjn : j < snap.length)
    (hmono : i ∉ st.merged) (hinv : MergeLogInv snap (i + 1) st) :
    MergeLogInv snap (i + 1) (mergeStepJ sim t snap i st j) ∧
      i ∉ (mergeStepJ sim t snap i st j).merged := by
  obtain ⟨h1, h2, h3⟩ := hinv
  unfold mergeStepJ
  by_cases hcj : st.merged.contains j
  · rw [if_pos hcj]
    exact ⟨⟨h1, h2, h3⟩, hmono⟩
  · have hcj' : st.merged.contains j = false := by
      cases hh : st.merged.contains j
      · rfl
      · exact absurd hh hcj
    have hjm : j ∉ st.merged := by simpa using hcj'
    rw [if_neg (by simpa using hcj')]
    dsimp only
    have hfired : ∀ d : DB,
        MergeLogInv snap (i + 1)
          (⟨d, st.merged ++ [j],
            st.logPairs ++ [((snap.getD i default).id, (snap.getD j default).id)]⟩
            : MergeState) ∧
          i ∉ (⟨d, st.merged ++ [j],
            st.logPairs ++ [((snap.getD i default).id, (snap.getD j default).id)]⟩
            : MergeState).merged := by
      intro d
      refine ⟨⟨?_, ?_, ?_⟩, ?_⟩
      · dsimp only
        rw [List.map_append]
        simp only [List.map_cons, List.map_nil]
        refine List.Nodup.append h1 (List.nodup_singleton _) ?_
        intro a ha hb
        rw [List.mem_singleton] at hb
        subst hb
        obtain ⟨p, hp, hpsnd⟩ := List.mem_map.mp ha
        obtain ⟨jj, hjjm, hjjn, hpid⟩ := h2 p hp
        have : jj = j := hinj jj j hjjn hjn (by rw [← hpid, hpsnd])
        exact hjm (this ▸ hjjm)
      · intro p hp
        dsimp only at hp
        rcases List.mem_append.mp hp with h | h
        · obtain ⟨jj, hjjm, hjjn, hpid⟩ := h2 p h
          exact ⟨jj, List.mem_append_left _ hjjm, hjjn, hpid⟩
        · rw [List.mem_singleton] at h
          subst h
          exact ⟨j, List.mem_append_right _ (List.mem_singleton_self _), hjn, rfl⟩
      · intro p hp
        dsimp only at hp
        rcases List.mem_append.mp hp with h | h
        · obtain ⟨ii, ha, hb, hc, hd⟩ := h3 p h
          refine ⟨ii, ha, hb, ?_, hd⟩
          intro hmem
          rcases List.mem_append.mp hmem with h2m | h2m
          · exact hc h2m
          · rw [List.mem_singleton] at h2m
            omega
        · rw [List.mem_singleton] at h
          subst h
          refine ⟨i, by omega, by omega, ?_, rfl⟩
          intro hmem
          rcases List.mem_append.mp hmem with h2m | h2m
          · exact hmono h2m
          · rw [List.mem_singleton] at h2m
            omega
      · dsimp only
        intro hmem
        rcases List.mem_append.mp hmem with h2m | h2m
        · exact hmono h2m
        · rw [List.mem_singleton] at h2m
          omega
    split_ifs with hsim htr
    · exact hfired _
    · exact hfired _
    · exact ⟨⟨h1, h2, h3⟩, hmono⟩

theorem mergeStepI_loginv (sim : Vec → Vec → ℚ) (t : ℚ)
    (snap : List FaceClusterRow) (hinj : SnapInj snap)
    (st : MergeState) (s : Nat) (hinv : MergeLogInv snap s st) :
    MergeLogInv snap (s + 1) (mergeStepI sim t snap st s) := by
  unfold mergeStepI
  by_cases hcs : st.merged.contains s
  · rw [if_pos hcs]
    exact hinv.mono (by omega)
  · have hcs' : st.merged.contains s = false := by
      cases hh : st.merged.contains s
      · rfl
      · exact absurd hh hcs
    have hsm : s ∉ st.merged := by simpa using hcs'
    rw [if_neg (by simpa using hcs')]
    dsimp only
    have hfold : MergeLogInv snap (s + 1)
        ((List.range' (s + 1) (snap.length - (s + 1))).foldl
          (mergeStepJ sim t snap s) st) ∧
        s ∉ ((List.range' (s + 1) (snap.length - (s + 1))).foldl
          (mergeStepJ sim t snap s) st).merged := by
      refine foldl_inv_mem
        (fun st' => MergeLogInv snap (s + 1) st' ∧ s ∉ st'.merged)
        (mergeStepJ sim t snap s) _ ?_ st ⟨hinv.mono (by omega), hsm⟩
      intro st' j hj ⟨hinv', hsm'⟩
      have hjb := List.mem_range'_1.mp hj
      exact mergeStepJ_loginv sim t snap hinj s st' j (by omega) (by omega)
        hsm' hinv'
    obtain ⟨hinv1, hsm1⟩ := hfold
    split_ifs with hc1
    · exact hinv1
    · exact hinv1

theorem merge_fold_loginv (sim : Vec → Vec → ℚ) (t : ℚ)
    (snap : List FaceClusterRow) (hinj : SnapInj snap) :
    ∀ (m s : Nat) (st : MergeState), MergeLogInv snap s st →
      MergeLogInv snap (s + m)
        ((List.range' s m).foldl (mergeStepI sim t snap) st) := by
  intro m
  induction m with
  | zero => intro s st h; exact h
  | succ m ih =>
    intro s st h
    rw [List.range'_succ s m 1, List.foldl_cons]
    have := ih (s + 1) (mergeStepI sim t snap st s)
      (mergeStepI_loginv sim t snap hinj st s h)
    have harith : s + 1 + m = s + (m + 1) := by omega
    rw [harith] at this
    exact this

theorem snapInj_of_nodup (snap : List FaceClusterRow)
    (hn : (snap.map (·.id)).Nodup) : SnapInj snap := by
  intro i j hi hj hEq
  rw [List.getD_eq_getElem snap default hi, List.getD_eq_getElem snap default hj] at hEq
  have hi' : i < (snap.map (·.id)).length := by simpa using hi
  have hj' : j < (snap.map (·.id)).length := by simpa using hj
  have hget : (snap.map (·.id)).get ⟨i, hi'⟩ = (snap.map (·.id)).get ⟨j, hj'⟩ := by
    simp only [List.get_eq_getElem, List.getElem_map]
    exact hEq
  have := (List.Nodup.get_inj_iff hn).mp hget
  simpa using this

theorem merge_pass_loginv (sim : Vec → Vec → ℚ) (db : DB) (event_id : Nat)
    (t : ℚ) (hnodup : (db.clusters.map (·.id)).Nodup) :
    MergeLogInv
      ((db.clusters.filter (fun c => c.event_id == some event_id)).filter
        (fun c => validate_embedding c.centroid))
      ((db.clusters.filter (fun c => c.event_id == some event_id)).filter
        (fun c => validate_embedding c.centroid)).length
      (merge_pass sim db event_id t) := by
  have hsub : (((db.clusters.filter (fun c => c.event_id == some event_id)).filter
      (fun c => validate_embedding c.centroid)).map (·.id)).Nodup := by
    refine List.Nodup.sublist (List.Sublist.map _ ?_) hnodup
    exact (List.filter_sublist _).trans (List.filter_sublist _)
  have hinj := snapInj_of_nodup _ hsub
  have h0 : MergeLogInv
      ((db.clusters.filter (fun c => c.event_id == some event_id)).filter
        (fun c => validate_embedding c.centroid)) 0 ⟨db, [], []⟩ := by
    refine ⟨List.nodup_nil, ?_, ?_⟩ <;> intro p hp <;> cases hp
  unfold merge_pass
  dsimp only
  split_ifs with h1 h2
  · exact h0.mono (by omega)
  · exact h0.mono (by omega)
  · rw [List.range_eq_range']
    have := merge_fold_loginv sim t _ hinj
      ((db.clusters.filter (fun c => c.event_id == some event_id)).filter
        (fun c => validate_embedding c.centroid)).length 0 ⟨db, [], []⟩ h0
    simpa using this

theorem mergeStepJ_fired (sim : Vec → Vec → ℚ) (t : ℚ)
    (snap : List FaceClusterRow) (i : Nat) (st : MergeState) (j : Nat)
    (hj : st.merged.contains j = false)
    (hsim : t ≤ sim (snap.getD i default).centroid (snap.getD j default).centroid) :
    mergeStepJ sim t snap i st j =
      { db := { st.db with
          faceEmbeddings := st.db.faceEmbeddings.map fun fe =>
            if fe.cluster_id == some (snap.getD j default).id
            then { fe with cluster_id := some (snap.getD i default).id } else fe,
          clusters :=
            (if !((snap.getD j default).user_id.getD 0 == 0) &&
                (((st.db.clusters.find?
                    (fun c => c.id == (snap.getD i default).id)).map
                  (·.user_id)).getD none).getD 0 == 0
             then st.db.clusters.map (fun c =>
                if c.id == (snap.getD i default).id
                then { c with user_id := (snap.getD j default).user_id } else c)
             else st.db.clusters).filter
              (fun c => !(c.id == (snap.getD j default).id)) },
        merged := st.merged ++ [j],
        logPairs := st.logPairs
          ++ [((snap.getD i default).id, (snap.getD j default).id)] } := by
  unfold mergeStepJ
  rw [hj]
  simp only [Bool.false_eq_true, if_false]
  rw [if_pos hsim]
  split_ifs <;> rfl

theorem find?_id_nodup (l : List FaceClusterRow) (c0 : FaceClusterRow)
    (hmem : c0 ∈ l) (hn : (l.map (·.id)).Nodup) :
    l.find? (fun c => c.id == c0.id) = some c0 := by
  induction l with
  | nil => cases hmem
  | cons a tl ih =>
    rw [List.map_cons, List.nodup_cons] at hn
    rcases List.mem_cons.mp hmem with h | h
    · subst h
      rw [List.find?_cons_of_pos _ (by simp)]
    · by_cases ha : a.id = c0.id
      · exfalso
        apply hn.1
        rw [ha]
        exact List.mem_map_of_mem _ h
      · rw [List.find?_cons_of_neg _ (by simpa using ha)]
        exact ih h hn.2

theorem map_id_filter_ne (l : List FaceClusterRow) (x : Nat) :
    ((l.filter (fun c => !(c.id == x))).map (·.id))
      = (l.map (·.id)).filter (fun a => !(a == x)) := by
  induction l with
  | nil => rfl
  | cons a tl ih =>
    by_cases ha : a.id = x
    · simp [List.filter_cons, ha, ih]
    · simp [List.filter_cons, ha, ih]

theorem merge_pass_two_clusters (sim : Vec → Vec → ℚ) (db : DB) (event_id : Nat)
    (t : ℚ) (c0 c1 : FaceClusterRow)
    (hsnapev : db.clusters.filter (fun c => c.event_id == some event_id) = [c0, c1])
    (hv0 : validate_embedding c0.centroid = true)
    (hv1 : validate_embedding c1.centroid = true)
    (hsim : t ≤ sim c0.centroid c1.centroid) :
    merge_pass sim db event_id t =
      ⟨update_cluster_centroid
        { db with
          faceEmbeddings := db.faceEmbeddings.map fun fe =>
            if fe.cluster_id == some c1.id
            then { fe with cluster_id := some c0.id } else fe,
          clusters :=
            (if !(c1.user_id.getD 0 == 0) &&
                (((db.clusters.find? (fun c => c.id == c0.id)).map
                  (·.user_id)).getD none).getD 0 == 0
             then db.clusters.map (fun c =>
                if c.id == c0.id then { c with user_id := c1.user_id } else c)
             else db.clusters).filter (fun c => !(c.id == c1.id)) }
        c0.id, [1], [(c0.id, c1.id)]⟩ := by
  have hJ := mergeStepJ_fired sim t [c0, c1] 0 ⟨db, [], []⟩ 1 rfl hsim
  have e1 : mergeStepI sim t [c0, c1] ⟨db, [], []⟩ 0
      = (if (mergeStepJ sim t [c0, c1] 0 ⟨db, [], []⟩ 1).merged.contains 0
         then mergeStepJ sim t [c0, c1] 0 ⟨db, [], []⟩ 1
         else { mergeStepJ sim t [c0, c1] 0 ⟨db, [], []⟩ 1 with
           db := update_cluster_centroid
             (mergeStepJ sim t [c0, c1] 0 ⟨db, [], []⟩ 1).db
             (([c0, c1].getD 0 default).id) }) := rfl
  rw [hJ] at e1
  simp only [List.nil_append] at e1
  rw [show (([1] : List Nat).contains 0) = false from rfl] at e1
  simp only [Bool.false_eq_true, if_false] at e1
  have e2 : ∀ st : MergeState, st.merged = [1] →
      mergeStepI sim t [c0, c1] st 1 = st := by
    intro st hm
    unfold mergeStepI
    rw [hm]
    rfl
  have hvfilter : ([c0, c1].filter (fun c => validate_embedding c.centroid))
      = [c0, c1] := by
    simp [List.filter_cons, hv0, hv1]
  unfold merge_pass
  rw [hsnapev]
  rw [if_neg (by simp)]
  rw [hvfilter]
  rw [if_neg (by simp)]
  rw [show List.range ([c0, c1] : List FaceClusterRow).length = [0, 1] from rfl]
  rw [List.foldl_cons, List.foldl_cons, List.foldl_nil]
  rw [e1]
  rw [e2 _ rfl]
  rfl

theorem update_cluster_centroid_mem_user (d : DB) (cid : Nat)
    (c'' : FaceClusterRow) (h : c'' ∈ d.clusters) :
    ∃ c' ∈ (update_cluster_centroid d cid).clusters,
      c'.id = c''.id ∧ c'.user_id = c''.user_id := by
  rcases update_cluster_centroid_cases d cid with hEq | ⟨v, hEq⟩
  · rw [hEq]
    exact ⟨c'', h, rfl, rfl⟩
  · rw [hEq]
    dsimp only
    refine ⟨_, List.mem_map_of_mem _ h, ?_, ?_⟩ <;> (dsimp only; split_ifs <;> rfl)

/-- **C3**: in one merge pass over an event's valid-centroid clusters
(ghost log `logPairs` recording each merge as a `(target id, source id)`
pair): a cluster merged away is never reused — the source ids are
pairwise distinct and no source id ever occurs as a target id; and in the
concrete two-cluster scenario (the event's clusters are exactly `c0, c1`,
both with valid centroids, at similarity ≥ the threshold), the pass folds
`c1` into `c0`: exactly one merge is logged, `c1` is deleted (the
surviving cluster ids are the original ones minus `c1.id`), every member
embedding of `c1` is reassigned to `c0` (the union of both member sets),
and the survivor's `user_id` is `c1`'s when `c1` had one and `c0` had
none (Python truthiness), else `c0`'s own. -/
theorem merge_pass_pair_semantics (sim : Vec → Vec → ℚ) (db : DB)
    (event_id : Nat) (t : ℚ)
    (hnodup : (db.clusters.map (·.id)).Nodup) :
    ((merge_pass sim db event_id t).logPairs.map Prod.snd).Nodup ∧
    (∀ p ∈ (merge_pass sim db event_id t).logPairs,
      ∀ q ∈ (merge_pass sim db event_id t).logPairs, p.2 ≠ q.1) ∧
    (∀ c0 c1 : FaceClusterRow,
      db.clusters.filter (fun c => c.event_id == some event_id) = [c0, c1] →
      validate_embedding c0.centroid = true →
      validate_embedding c1.centroid = true →
      t ≤ sim c0.centroid c1.centroid →
      (merge_pass sim db event_id t).logPairs = [(c0.id, c1.id)] ∧
      (merge_similar_clusters sim db event_id t).clusters.map (·.id)
        = (db.clusters.map (·.id)).filter (fun a => !(a == c1.id)) ∧
      (merge_similar_clusters sim db event_id t).faceEmbeddings
        = db.faceEmbeddings.map (fun fe =>
            if fe.cluster_id == some c1.id
            then { fe with cluster_id := some c0.id } else fe) ∧
      ∃ c' ∈ (merge_similar_clusters sim db event_id t).clusters,
        c'.id = c0.id ∧
        c'.user_id = (if !(c1.user_id.getD 0 == 0) && c0.user_id.getD 0 == 0
          then c1.user_id else c0.user_id)) := by
  obtain ⟨h1, h2, h3⟩ := merge_pass_loginv sim db event_id t hnodup
  have hinj : SnapInj
      ((db.clusters.filter (fun c => c.event_id == some event_id)).filter
        (fun c => validate_embedding c.centroid)) := by
    apply snapInj_of_nodup
    refine List.Nodup.sublist (List.Sublist.map _ ?_) hnodup
    exact (List.filter_sublist _).trans (List.filter_sublist _)
  refine ⟨h1, ?_, ?_⟩
  · intro p hp q hq hpq
    obtain ⟨jj, hjjm, hjjn, hpid⟩ := h2 p hp
    obtain ⟨ii, hiin, _, hiim, hqid⟩ := h3 q hq
    have : jj = ii := hinj jj ii hjjn hiin (by rw [← hpid, hpq, hqid])
    exact hiim (this ▸ hjjm)
  · intro c0 c1 hsnapev hv0 hv1 hsim
    have hpass := merge_pass_two_clusters sim db event_id t c0 c1 hsnapev hv0 hv1 hsim
    have hc0mem : c0 ∈ db.clusters := by
      have : c0 ∈ db.clusters.filter (fun c => c.event_id == some event_id) := by
        rw [hsnapev]
        exact List.mem_cons_self _ _
      exact List.mem_of_mem_filter this
    have hne : c0.id ≠ c1.id := by
      have hsub : ((db.clusters.filter
          (fun c => c.event_id == some event_id)).map (·.id)).Nodup :=
        List.Nodup.sublist (List.Sublist.map _ (List.filter_sublist _)) hnodup
      rw [hsnapev] at hsub
      simp at hsub
      exact hsub
    have hfind : db.clusters.find? (fun c => c.id == c0.id) = some c0 :=
      find?_id_nodup db.clusters c0 hc0mem hnodup
    have hMS : merge_similar_clusters sim db event_id t
        = (merge_pass sim db event_id t).db := rfl
    refine ⟨by rw [hpass], ?_, ?_, ?_⟩
    · rw [hMS, hpass]
      dsimp only
      rw [update_cluster_centroid_cluster_ids]
      dsimp only
      rw [hfind]
      by_cases htr : (!(c1.user_id.getD 0 == 0) &&
          ((((some c0).map (·.user_id)).getD none).getD 0 == 0)) = true
      · rw [if_pos htr]
        rw [map_id_filter_ne]
        rw [List.map_map]
        congr 1
        apply List.map_congr_left
        intro c _
        dsimp only [Function.comp]
        split_ifs <;> rfl
      · rw [if_neg htr]
        rw [map_id_filter_ne]
    · rw [hMS, hpass]
      dsimp only
      rw [update_cluster_centroid_faceEmbeddings]
    · rw [hMS, hpass]
      dsimp only
      rw [hfind]
      by_cases htr : (!(c1.user_id.getD 0 == 0) && c0.user_id.getD 0 == 0) = true
      · have htr' : (!(c1.user_id.getD 0 == 0) &&
            ((((some c0).map (·.user_id)).getD none).getD 0 == 0)) = true := htr
        rw [if_pos htr', if_pos htr]
        have hmem3 : ({ c0 with user_id := c1.user_id } : FaceClusterRow) ∈
            ((db.clusters.map (fun c =>
              if c.id == c0.id then { c with user_id := c1.user_id } else c)).filter
                (fun c => !(c.id == c1.id))) := by
          rw [List.mem_filter]
          constructor
          · have : ({ c0 with user_id := c1.user_id } : FaceClusterRow)
                = (fun c => if c.id == c0.id
                    then { c with user_id := c1.user_id } else c) c0 := by
              simp
            rw [this]
            exact List.mem_map_of_mem _ hc0mem
          · simpa using hne
        obtain ⟨c', hc'm, hc'id, hc'u⟩ :=
          update_cluster_centroid_mem_user
            { db with
              faceEmbeddings := db.faceEmbeddings.map fun fe =>
                if fe.cluster_id == some c1.id
                then { fe with cluster_id := some c0.id } else fe,
              clusters := (db.clusters.map (fun c =>
                if c.id == c0.id then { c with user_id := c1.user_id } else c)).filter
                  (fun c => !(c.id == c1.id)) }
            c0.id _ hmem3
        exact ⟨c', hc'm, hc'id, hc'u⟩
      · have htr' : (!(c1.user_id.getD 0 == 0) &&
            ((((some c0).map (·.user_id)).getD none).getD 0 == 0)) = false := by
          cases hh : (!(c1.user_id.getD 0 == 0) &&
              ((((some c0).map (·.user_id)).getD none).getD 0 == 0))
          · rfl
          · exact absurd hh htr
        rw [htr']
        simp only [Bool.false_eq_true, if_false]
        rw [if_neg htr]
        have hmem3 : c0 ∈ (db.clusters.filter (fun c => !(c.id == c1.id))) := by
          rw [List.mem_filter]
          exact ⟨hc0mem, by simpa using hne⟩
        obtain ⟨c', hc'm, hc'id, hc'u⟩ :=
          update_cluster_centroid_mem_user
            { db with
              faceEmbeddings := db.faceEmbeddings.map fun fe =>
                if fe.cluster_id == some c1.id
                then { fe with cluster_id := some c0.id } else fe,
              clusters := db.clusters.filter (fun c => !(c.id == c1.id)) }
            c0.id _ hmem3
        exact ⟨c', hc'm, hc'id, hc'u⟩

/-- Witness for `merge_pass_pair_semantics` at `dbC3w`. -/
theorem merge_pass_pair_semantics_witness :
    (dbC3w.clusters.map (·.id)).Nodup ∧
    (dbC3w.clusters.filter (fun c => c.event_id == some 5)
      = [⟨1, vA, none, some 5⟩, ⟨2, vB, some 9, some 5⟩]) ∧
    ((merge_pass cosineSim dbC3w 5 (mkRat 72 100)).logPairs = [(1, 2)] ∧
      (merge_similar_clusters cosineSim dbC3w 5 (mkRat 72 100)).clusters.map (·.id)
        = (dbC3w.clusters.map (·.id)).filter (fun a => !(a == 2)) ∧
      (merge_similar_clusters cosineSim dbC3w 5 (mkRat 72 100)).faceEmbeddings
        = dbC3w.faceEmbeddings.map (fun fe =>
            if fe.cluster_id == some 2
            then { fe with cluster_id := some 1 } else fe) ∧
      ∃ c' ∈ (merge_similar_clusters cosineSim dbC3w 5 (mkRat 72 100)).clusters,
        c'.id = 1 ∧
        c'.user_id = (if !((some 9 : Option Nat).getD 0 == 0) &&
            (none : Option Nat).getD 0 == 0
          then (some 9 : Option Nat) else none)) :=
  ⟨by decide, by decide,
    (merge_pass_pair_semantics cosineSim dbC3w 5 (mkRat 72 100) (by decide)).2.2
      ⟨1, vA, none, some 5⟩ ⟨2, vB, some 9, some 5⟩
      (by decide) (by decide) (by decide) (by decide)⟩

theorem bestUserGo_spec (sim : Vec → Vec → ℚ) (centroid : Vec)
    (rest : List (Nat × List Vec)) :
    ∀ (pre : List (Nat × List Vec)) (acc : Option Nat × ℚ),
    BestInv sim centroid (pre ++ rest) pre.length acc →
    BestInv sim centroid (pre ++ rest) (pre ++ rest).length
      (rest.foldl
        (fun (best : Option Nat × ℚ) p =>
          let avg := meanQ (p.2.map fun uvec => sim centroid uvec)
          if best.2 < avg then (some p.1, avg) else best) acc) := by
  induction rest with
  | nil =>
    intro pre acc h
    simpa using h
  | cons x rest ih =>
    intro pre acc h
    rw [List.foldl_cons]
    have hx : (pre ++ x :: rest).getD pre.length default = x := by
      rw [List.getD_eq_getElem?_getD, List.getElem?_append_right le_rfl]
      simp
    have hassoc : pre ++ x :: rest = (pre ++ [x]) ++ rest := by simp
    have hplen : (pre ++ [x]).length = pre.length + 1 := by simp
    rw [show (let avg := meanQ (List.map (fun uvec => sim centroid uvec) x.2);
        if acc.2 < avg then (some x.1, avg) else acc)
        = if acc.2 < meanScore sim centroid x
          then (some x.1, meanScore sim centroid x) else acc from rfl]
    by_cases hcmp : acc.2 < meanScore sim centroid x
    · rw [if_pos hcmp]
      have hnext : BestInv sim centroid ((pre ++ [x]) ++ rest)
          (pre ++ [x]).length (some x.1, meanScore sim centroid x) := by
        rw [← hassoc, hplen]
        refine Or.inr ⟨pre.length, by omega, by rw [hx], ?_, ?_, ?_⟩
        · rw [hx]
          rcases h with ⟨hacc, _⟩ | ⟨k, _, hacc, hgt, _, _⟩
          · rw [hacc] at hcmp
            exact hcmp
          · rw [hacc] at hcmp
            exact lt_trans hgt hcmp
        · intro j hj
          rw [hx]
          rcases Nat.lt_succ_iff_lt_or_eq.mp hj with hj' | hj'
          · rcases h with ⟨hacc, hall⟩ | ⟨k, _, hacc, _, hall, _⟩
            · rw [hacc] at hcmp
              exact le_of_lt (lt_of_le_of_lt (hall j hj') hcmp)
            · rw [hacc] at hcmp
              exact le_of_lt (lt_of_le_of_lt (hall j hj') hcmp)
          · subst hj'
            rw [hx]
        · intro j hj
          rw [hx]
          rcases h with ⟨hacc, hall⟩ | ⟨k, _, hacc, _, hall, _⟩
          · rw [hacc] at hcmp
            exact lt_of_le_of_lt (hall j hj) hcmp
          · rw [hacc] at hcmp
            exact lt_of_le_of_lt (hall j hj) hcmp
      have := ih (pre ++ [x]) (some x.1, meanScore sim centroid x) hnext
      rw [← hassoc] at this
      simpa using this
    · rw [if_neg hcmp]
      have hnext : BestInv sim centroid ((pre ++ [x]) ++ rest)
          (pre ++ [x]).length acc := by
        rw [← hassoc, hplen]
        rcases h with ⟨hacc, hall⟩ | ⟨k, hk, hacc, hgt, hall, hfirst⟩
        · refine Or.inl ⟨hacc, fun j hj => ?_⟩
          rcases Nat.lt_succ_iff_lt_or_eq.mp hj with hj' | hj'
          · exact hall j hj'
          · subst hj'
            rw [hx]
            rw [hacc] at hcmp
            exact le_of_not_lt hcmp
        · refine Or.inr ⟨k, by omega, hacc, hgt, fun j hj => ?_, hfirst⟩
          rcases Nat.lt_succ_iff_lt_or_eq.mp hj with hj' | hj'
          · exact hall j hj'
          · subst hj'
            rw [hx]
            rw [hacc] at hcmp
            exact le_of_not_lt hcmp
      have := ih (pre ++ [x]) acc hnext
      rw [← hassoc] at this
      simpa using this

/-- `bestUserFor` returns the first best mean score over the whole dict. -/
theorem bestUserFor_spec (sim : Vec → Vec → ℚ) (centroid : Vec)
    (l : List (Nat × List Vec)) :
    BestInv sim centroid l l.length (bestUserFor sim centroid l) := by
  have h0 : BestInv sim centroid ([] ++ l) ([] : List (Nat × List Vec)).length
      (none, mkRat (-1) 1) :=
    Or.inl ⟨rfl, fun j hj => by cases hj⟩
  have := bestUserGo_spec sim centroid l [] (none, mkRat (-1) 1) h0
  simpa using this

theorem userProfileRows_pos (db : DB) (hupos : ∀ u ∈ db.users, 0 < u.id) :
    ∀ r ∈ userProfileRows db, 0 < r.1 := by
  intro r hr
  unfold userProfileRows at hr
  simp only [List.mem_flatMap, List.mem_filter, List.mem_map] at hr
  obtain ⟨u, hu, g, hg, m, hm, fe, hfe, hreq⟩ := hr
  rw [← hreq]
  exact hupos u hu

theorem buildUserEmbeddings_pos (rows : List (Nat × Vec))
    (h : ∀ r ∈ rows, 0 < r.1) :
    ∀ p ∈ buildUserEmbeddings rows, 0 < p.1 := by
  unfold buildUserEmbeddings
  refine foldl_inv_mem (fun acc : List (Nat × List Vec) => ∀ p ∈ acc, 0 < p.1) _ rows ?_ []
    (fun p hp => by cases hp)
  intro acc r hr hacc p hp
  split_ifs at hp with h1 h2
  · obtain ⟨q, hq, hqe⟩ := List.mem_map.mp hp
    rw [← hqe]
    by_cases hqq : (q.1 == r.1) = true
    · simp only [hqq, if_true]
      exact hacc q hq
    · have : (q.1 == r.1) = false := by
        cases hh : q.1 == r.1
        · rfl
        · exact absurd hh hqq
      simp only [this, Bool.false_eq_true, if_false]
      exact hacc q hq
  · rcases List.mem_append.mp hp with hm | hm
    · exact hacc p hm
    · rw [List.mem_singleton] at hm
      subst hm
      exact h r hr
  · exact hacc p hp

theorem matchClusterStep_empty (sim : Vec → Vec → ℚ) (t : ℚ) (d : DB)
    (cid : Nat) : matchClusterStep sim [] t d cid = d := by
  unfold matchClusterStep
  cases d.clusters.find? (fun c => c.id == cid) with
  | none => rfl
  | some cluster =>
    dsimp only
    split_ifs
    · rfl
    · rfl

/-- **C5**: in cluster-to-user matching, the score of a `(user,
embeddings)` entry is the *mean* similarity between the cluster centroid
and the user's validated reference embeddings, and the chosen user is the
first entry attaining the maximal mean (`BestInv`); every enrolled key is
a positive user id, so the source's truthiness guard reduces to the
threshold test; a looked-up cluster with a valid centroid is assigned the
best user's id exactly when that best mean score reaches the identity
threshold (a no-op when the same user is already recorded); and with no
enrolled users with valid reference embeddings the whole operation
returns the database unchanged. -/
theorem match_clusters_to_users_semantics (sim : Vec → Vec → ℚ) (db : DB)
    (media_id : Nat) (t : ℚ) (hupos : ∀ u ∈ db.users, 0 < u.id) :
    (∀ centroid : Vec, BestInv sim centroid
        (buildUserEmbeddings (userProfileRows db))
        (buildUserEmbeddings (userProfileRows db)).length
        (bestUserFor sim centroid (buildUserEmbeddings (userProfileRows db)))) ∧
    (∀ p ∈ buildUserEmbeddings (userProfileRows db), 0 < p.1) ∧
    (∀ (ue : List (Nat × List Vec)) (d : DB) (cid : Nat)
        (cluster : FaceClusterRow),
      d.clusters.find? (fun c => c.id == cid) = some cluster →
      validate_embedding cluster.centroid = true →
      ∀ uid : Nat, (bestUserFor sim cluster.centroid ue).1 = some uid →
      ((0 < uid ∧ t ≤ (bestUserFor sim cluster.centroid ue).2) →
        matchClusterStep sim ue t d cid
          = (if cluster.user_id == some uid then d
             else { d with clusters := d.clusters.map fun c =>
                 if c.id == cid then { c with user_id := some uid } else c })) ∧
      (¬ (0 < uid ∧ t ≤ (bestUserFor sim cluster.centroid ue).2) →
        matchClusterStep sim ue t d cid = d)) ∧
    (buildUserEmbeddings (userProfileRows db) = [] →
      match_clusters_to_users sim db media_id t = db) := by
  refine ⟨fun centroid => bestUserFor_spec sim centroid _,
    buildUserEmbeddings_pos _ (userProfileRows_pos db hupos), ?_, ?_⟩
  · intro ue d cid cluster hfind hval uid huid
    constructor
    · intro ⟨hpos, hthr⟩
      unfold matchClusterStep
      rw [hfind]
      dsimp only
      simp only [hval, Bool.not_true, Bool.false_eq_true, if_false]
      rw [huid]
      dsimp only
      have hb : (decide (0 < uid) && decide (t ≤ (bestUserFor sim
          cluster.centroid ue).2)) = true := by
        simp [hpos, hthr]
      rw [hb]
      simp only [if_true]
    · intro hneg
      unfold matchClusterStep
      rw [hfind]
      dsimp only
      simp only [hval, Bool.not_true, Bool.false_eq_true, if_false]
      rw [huid]
      dsimp only
      have hb : (decide (0 < uid) && decide (t ≤ (bestUserFor sim
          cluster.centroid ue).2)) = false := by
        rcases Decidable.not_and_iff_or_not.mp hneg with h | h
        · simp [h]
        · simp [h]
      rw [hb]
      simp only [Bool.false_eq_true, if_false]
  · intro hempty
    unfold match_clusters_to_users
    dsimp only
    split_ifs with h1
    · rfl
    · rw [hempty]
      exact foldl_id_of (fun d cid _ => matchClusterStep_empty sim t d cid) db

/-- Witness for `match_clusters_to_users_semantics` at `dbC5w`: the user
scores `cos(vA,vA) = 1 ≥ 0.72` against the cluster, so the step assigns
user 9 to cluster 1. -/
theorem match_clusters_to_users_semantics_witness :
    (∀ u ∈ dbC5w.users, 0 < u.id) ∧
    dbC5w.clusters.find? (fun c => c.id == 1) = some ⟨1, vA, none, some 5⟩ ∧
    (bestUserFor cosineSim vA [(9, [vA])]).1 = some 9 ∧
    matchClusterStep cosineSim [(9, [vA])] (mkRat 72 100) dbC5w 1
      = (if (none : Option Nat) == some 9 then dbC5w
         else { dbC5w with clusters := dbC5w.clusters.map fun c =>
             if c.id == 1 then { c with user_id := some 9 } else c }) :=
  ⟨by decide, by decide, by decide,
    ((match_clusters_to_users_semantics cosineSim dbC5w 1 (mkRat 72 100)
        (by decide)).2.2.1 [(9, [vA])] dbC5w 1 ⟨1, vA, none, some 5⟩
      (by decide) (by decide) 9 (by decide)).1 ⟨by decide, by decide⟩⟩

theorem flatMap_eq_filter {α : Type _} (l : List α) (body : α → List α)
    (p : α → Bool) (h : ∀ a ∈ l, body a = if p a then [a] else []) :
    l.flatMap body = l.filter p := by
  induction l with
  | nil => rfl
  | cons x xs ih =>
    rw [List.flatMap_cons, List.filter_cons,
      h x (List.mem_cons_self x xs),
      ih (fun a ha => h a (List.mem_cons_of_mem x ha))]
    split_ifs <;> rfl

/-- Under the one-usage-per-media guarantee, the SQL join of
`update_cluster_centroid` is exactly the member-row filter (each row
contributes once). -/
theorem centroidSourceRows_eq (d : DB) (cid : Nat)
    (husage : ∀ m ∈ d.media,
      (d.usages.filter (fun u => u.media_id == m.id)).length ≤ 1) :
    centroidSourceRows d cid = memberRows d cid := by
  unfold centroidSourceRows memberRows
  apply flatMap_eq_filter
  intro fe _
  by_cases h1 : (fe.cluster_id == some cid && mediaExists d fe.media_id) = true
  · rw [if_pos h1]
    have hexists : mediaExists d fe.media_id = true := by
      have := h1
      simp only [Bool.and_eq_true] at this
      exact this.2
    obtain ⟨m, hm, hmid⟩ := by
      have := List.any_eq_true.mp hexists
      simpa using this
    have hlen1 : (eventScopedUsages d fe.media_id).length ≤ 1 := by
      have hsub : eventScopedUsages d fe.media_id
          = (d.usages.filter (fun u => u.media_id == m.id)).filter
            (fun u => u.owner_type == ContentOwnerType.event &&
              !(isProfileUsage u.usage_type)) := by
        unfold eventScopedUsages
        rw [List.filter_filter]
        apply List.filter_congr
        intro u _
        rw [hmid]
        cases hu1 : u.media_id == fe.media_id <;>
          cases hu2 : u.owner_type == ContentOwnerType.event <;>
            cases hu3 : isProfileUsage u.usage_type <;> rfl
      rw [hsub]
      exact le_trans (List.length_filter_le _ _) (husage m hm)
    cases hcase : eventScopedUsages d fe.media_id with
    | nil =>
      rw [List.map_nil, if_neg (by simp)]
    | cons u rest =>
      have hrest : rest = [] := by
        rw [hcase] at hlen1
        simpa using hlen1
      subst hrest
      rw [List.map_cons, List.map_nil]
      rw [if_pos]
      rw [Bool.and_eq_true]
      exact ⟨h1, rfl⟩
  · have h1' : (fe.cluster_id == some cid && mediaExists d fe.media_id) = false := by
      cases hh : (fe.cluster_id == some cid && mediaExists d fe.media_id)
      · rfl
      · exact absurd hh h1
    rw [if_neg (by rw [h1']; decide)]
    rw [if_neg]
    intro hcon
    simp only [Bool.and_eq_true] at hcon h1'
    exact h1 (by simp [hcon.1.1, hcon.1.2])

/-- `update_cluster_centroid` under the one-usage-per-media guarantee:
with no valid event-scoped member the state (in particular the stored
centroid) is unchanged; with at least one, and a finite mean, the
cluster's centroid is rewritten to the arithmetic mean of the valid
member embeddings and nothing else changes. -/
theorem update_cluster_centroid_spec (d : DB) (cid : Nat)
    (husage : ∀ m ∈ d.media,
      (d.usages.filter (fun u => u.media_id == m.id)).length ≤ 1) :
    (validMemberVecs d cid = [] → update_cluster_centroid d cid = d) ∧
    (validMemberVecs d cid ≠ [] →
      validate_embedding (meanVec (validMemberVecs d cid)) = false →
      update_cluster_centroid d cid = d) ∧
    (validMemberVecs d cid ≠ [] →
      validate_embedding (meanVec (validMemberVecs d cid)) = true →
      update_cluster_centroid d cid
        = { d with clusters := d.clusters.map fun c =>
            if c.id == cid
            then { c with centroid := meanVec (validMemberVecs d cid) }
            else c }) := by
  unfold update_cluster_centroid
  cases hfind : d.clusters.find? (fun c => c.id == cid) with
  | none =>
    refine ⟨fun _ => rfl, fun _ _ => rfl, fun _ _ => ?_⟩
    have hmap : d.clusters.map (fun c =>
        if c.id == cid
        then { c with centroid := meanVec (validMemberVecs d cid) }
        else c) = d.clusters := by
      have : ∀ c ∈ d.clusters, (if c.id == cid
          then { c with centroid := meanVec (validMemberVecs d cid) }
          else c) = id c := by
        intro c hc
        have := List.find?_eq_none.mp hfind c hc
        simp only [id]
        rw [if_neg this]
      rw [List.map_congr_left this, List.map_id]
    rw [hmap]
  | some c0 =>
    dsimp only
    rw [centroidSourceRows_eq d cid husage]
    rw [show (List.map (fun x : FaceEmbeddingRow => x.embedding)
        (List.filter (fun f => validate_embedding f.embedding) (memberRows d cid)))
      = validMemberVecs d cid from rfl]
    by_cases hmr : (memberRows d cid).isEmpty
    · rw [if_pos hmr]
      have hvm : validMemberVecs d cid = [] := by
        unfold validMemberVecs
        rw [List.isEmpty_iff.mp hmr]
        rfl
      refine ⟨fun _ => rfl, fun hne _ => absurd hvm hne, fun hne _ => absurd hvm hne⟩
    · rw [if_neg (by simpa using hmr)]
      by_cases hvm : validMemberVecs d cid = []
      · rw [if_pos (by
          show (validMemberVecs d cid).isEmpty = true
          rw [hvm]
          rfl)]

        exact ⟨fun _ => rfl, fun hne _ => absurd hvm hne, fun hne _ => absurd hvm hne⟩
      · rw [if_neg (by
          show ¬ ((validMemberVecs d cid).isEmpty = true)
          intro hcon
          exact hvm (List.isEmpty_iff.mp hcon))]
        by_cases hval : validate_embedding (meanVec (validMemberVecs d cid)) = true
        · rw [show (!(validate_embedding (meanVec (validMemberVecs d cid))))
            = false by rw [hval]; decide]
          simp only [Bool.false_eq_true, if_false]
          exact ⟨fun h => absurd h hvm, fun _ hf => absurd hval (by rw [hf]; simp),
            fun _ _ => by trivial⟩
        · have hval' : validate_embedding (meanVec (validMemberVecs d cid)) = false := by
            cases hh : validate_embedding (meanVec (validMemberVecs d cid))
            · rfl
            · exact absurd hh hval
          rw [show (!(validate_embedding (meanVec (validMemberVecs d cid))))
            = true by rw [hval']; decide]
          simp only [if_true]
          exact ⟨fun _ => by trivial, fun _ _ => by trivial, fun _ hc => absurd hc hval⟩

theorem validMemberVecs_update (d : DB) (a cid : Nat) :
    validMemberVecs (update_cluster_centroid d a) cid = validMemberVecs d cid := by
  unfold validMemberVecs memberRows mediaExists eventScopedUsages
  simp only [update_cluster_centroid_faceEmbeddings, update_cluster_centroid_media,
    update_cluster_centroid_usages]

theorem update_cluster_centroid_other (d : DB) (a : Nat) (c1 : FaceClusterRow)
    (h : c1 ∈ (update_cluster_centroid d a).clusters) (hne : c1.id ≠ a) :
    c1 ∈ d.clusters := by
  rcases update_cluster_centroid_cases d a with hEq | ⟨v, hEq⟩
  · rw [hEq] at h
    exact h
  · rw [hEq] at h
    dsimp only at h
    obtain ⟨c2, hc2, hc2e⟩ := List.mem_map.mp h
    by_cases hid : (c2.id == a) = true
    · exfalso
      apply hne
      rw [← hc2e]
      simp only [hid, if_true]
      exact (beq_iff_eq.mp hid)
    · have hid' : (c2.id == a) = false := by
        cases hh : c2.id == a
        · rfl
        · exact absurd hh hid
      rw [← hc2e, hid']
      simpa using hc2

theorem updFold_other (ids : List Nat) (d : DB) (cid : Nat) (h : cid ∉ ids) :
    ∀ c ∈ (ids.foldl update_cluster_centroid d).clusters, c.id = cid →
      c ∈ d.clusters := by
  induction ids generalizing d with
  | nil => intro c hc _; exact hc
  | cons a rest ih =>
    intro c hc hcid
    have hna : cid ≠ a := fun hh => h (hh ▸ List.mem_cons_self a rest)
    have hnr : cid ∉ rest := fun hh => h (List.mem_cons_of_mem a hh)
    have := ih (update_cluster_centroid d a) hnr c hc hcid
    exact update_cluster_centroid_other d a c this (by rw [hcid]; exact hna)

theorem updFold_spec (ids : List Nat) :
    ∀ (d : DB), ids.Nodup →
    (∀ m ∈ d.media,
      (d.usages.filter (fun u => u.media_id == m.id)).length ≤ 1) →
    ∀ cid ∈ ids, ∀ c ∈ (ids.foldl update_cluster_centroid d).clusters,
      c.id = cid →
      (validMemberVecs d cid ≠ [] →
        validate_embedding (meanVec (validMemberVecs d cid)) = true →
        c.centroid = meanVec (validMemberVecs d cid)) ∧
      (validMemberVecs d cid = [] →
        ∃ c0 ∈ d.clusters, c0.id = cid ∧ c.centroid = c0.centroid) := by
  induction ids with
  | nil => intro d _ _ cid hcid; cases hcid
  | cons a rest ih =>
    intro d hnd husage cid hcid c hc hcidc
    rw [List.nodup_cons] at hnd
    have husage' : ∀ m ∈ (update_cluster_centroid d a).media,
        ((update_cluster_centroid d a).usages.filter
          (fun u => u.media_id == m.id)).length ≤ 1 := by
      intro m hm
      rw [update_cluster_centroid_media] at hm
      rw [update_cluster_centroid_usages]
      exact husage m hm
    rcases List.mem_cons.mp hcid with hcase | hcase
    · subst hcase
      have hc1 := updFold_other rest (update_cluster_centroid d cid) cid hnd.1 c hc hcidc
      constructor
      · intro hne hval
        have hspec := (update_cluster_centroid_spec d cid husage).2.2 hne hval
        rw [hspec] at hc1
        dsimp only at hc1
        obtain ⟨c2, hc2, hc2e⟩ := List.mem_map.mp hc1
        by_cases hid : (c2.id == cid) = true
        · rw [← hc2e]
          simp only [hid, if_true]
        · have hid' : (c2.id == cid) = false := by
            cases hh : c2.id == cid
            · rfl
            · exact absurd hh hid
          exfalso
          rw [← hc2e] at hcidc
          rw [hid'] at hcidc
          simp only [Bool.false_eq_true, if_false] at hcidc
          exact absurd (beq_iff_eq.mpr hcidc) (by rw [hid']; decide)
      · intro hvm
        have hspec := (update_cluster_centroid_spec d cid husage).1 hvm
        rw [hspec] at hc1
        exact ⟨c, hc1, hcidc, rfl⟩
    · have hna : cid ≠ a := fun hh => hnd.1 (hh ▸ hcase)
      have := ih (update_cluster_centroid d a) hnd.2 husage' cid hcase c hc hcidc
      rw [validMemberVecs_update] at this
      refine ⟨this.1, ?_⟩
      intro hvm
      obtain ⟨c0, hc0, hc0id, hc0c⟩ := this.2 hvm
      refine ⟨c0, ?_, hc0id, hc0c⟩
      exact update_cluster_centroid_other d a c0 hc0 (by rw [hc0id]; exact hna)

theorem filter_map_invariant {α : Type _} (l : List α) (f : α → α) (p : α → Bool)
    (h1 : ∀ a, p a = true → f a = a) (h2 : ∀ a, p (f a) = true → p a = true) :
    (l.map f).filter p = l.filter p := by
  induction l with
  | nil => rfl
  | cons x xs ih =>
    rw [List.map_cons, List.filter_cons, List.filter_cons]
    cases hpx : p (f x) with
    | true =>
      have hx := h2 x hpx
      rw [hx, h1 x hx, ih]
    | false =>
      have hx : p x = false := by
        cases hh : p x
        · rfl
        · rw [h1 x hh] at hpx
          rw [hh] at hpx
          cases hpx
      rw [hx, ih]
      rfl

theorem validMemberVecs_ext (d1 d2 : DB)
    (hf : d1.faceEmbeddings = d2.faceEmbeddings) (hm : d1.media = d2.media)
    (hu : d1.usages = d2.usages) (cid : Nat) :
    validMemberVecs d1 cid = validMemberVecs d2 cid := by
  unfold validMemberVecs memberRows mediaExists eventScopedUsages
  simp only [hf, hm, hu]

theorem validMemberVecs_reassign (d : DB) (fromId toId cid : Nat)
    (h1 : cid ≠ fromId) (h2 : cid ≠ toId) :
    validMemberVecs { d with faceEmbeddings := d.faceEmbeddings.map fun fe =>
      if fe.cluster_id == some fromId
      then { fe with cluster_id := some toId } else fe } cid
    = validMemberVecs d cid := by
  unfold validMemberVecs memberRows mediaExists eventScopedUsages
  dsimp only
  rw [filter_map_invariant]
  · intro a ha
    simp only [Bool.and_eq_true, beq_iff_eq] at ha
    rw [if_neg]
    intro hcon
    rw [beq_iff_eq] at hcon
    rw [ha.1.1] at hcon
    exact h1 (by injection hcon)
  · intro a ha
    by_cases hfa : (a.cluster_id == some fromId) = true
    · exfalso
      simp only [hfa, if_true, Bool.and_eq_true, beq_iff_eq] at ha
      have hv := ha.1.1
      injection hv with hv2
      exact h2 hv2.symm
    · have hfa' : (a.cluster_id == some fromId) = false := by
        cases hh : a.cluster_id == some fromId
        · rfl
        · exact absurd hh hfa
      rw [hfa'] at ha
      simpa using ha

theorem nodup_id_unique (l : List FaceClusterRow)
    (hn : (l.map (·.id)).Nodup) (a b : FaceClusterRow)
    (ha : a ∈ l) (hb : b ∈ l) (hid : a.id = b.id) : a = b := by
  induction l with
  | nil => cases ha
  | cons x xs ih =>
    rw [List.map_cons, List.nodup_cons] at hn
    rcases List.mem_cons.mp ha with h1 | h1 <;>
      rcases List.mem_cons.mp hb with h2 | h2
    · rw [h1, h2]
    · exfalso
      apply hn.1
      rw [h1] at hid
      rw [hid]
      exact List.mem_map_of_mem _ h2
    · exfalso
      apply hn.1
      rw [h2] at hid
      rw [← hid]
      exact List.mem_map_of_mem _ h1
    · exact ih hn.2 h1 h2

theorem getD_id_mem_map (snap : List FaceClusterRow) (s : Nat)
    (hs : s < snap.length) :
    (snap.getD s default).id ∈ snap.map (·.id) := by
  rw [List.getD_eq_getElem _ _ hs]
  exact List.mem_map_of_mem _ (List.getElem_mem _)

theorem merged_record_centroidInv (db : DB) (snap : List FaceClusterRow)
    (hinj : SnapInj snap) (s j : Nat) (hs : s < snap.length) (hsj : s < j)
    (hjn : j < snap.length) (st : MergeState)
    (hinv : MergeCentroidInv db snap s st)
    (CL : List FaceClusterRow)
    (hCL : CL = st.db.clusters ∨ CL = st.db.clusters.map (fun c =>
      if c.id == (snap.getD s default).id
      then { c with user_id := (snap.getD j default).user_id } else c))
    (lg : List (Nat × Nat)) :
    MergeCentroidInv db snap s
      ⟨{ st.db with
          faceEmbeddings := st.db.faceEmbeddings.map fun fe =>
            if fe.cluster_id == some (snap.getD j default).id
            then { fe with cluster_id := some (snap.getD s default).id } else fe,
          clusters := CL.filter
            (fun c => !(c.id == (snap.getD j default).id)) },
        st.merged ++ [j], lg⟩ := by
  obtain ⟨hF1, hF2, hN, hU, hS, hP⟩ := hinv
  have hgid : ∀ c : FaceClusterRow, ((fun c =>
      if c.id == (snap.getD s default).id
      then { c with user_id := (snap.getD j default).user_id } else c) c).id
      = c.id := by
    intro c
    dsimp only
    split_ifs <;> rfl
  have hgcent : ∀ c : FaceClusterRow, ((fun c =>
      if c.id == (snap.getD s default).id
      then { c with user_id := (snap.getD j default).user_id } else c) c).centroid
      = c.centroid := by
    intro c
    dsimp only
    split_ifs <;> rfl
  have hciidmem : (snap.getD s default).id ∈ snap.map (·.id) :=
    getD_id_mem_map snap s hs
  have hcjidmem : (snap.getD j default).id ∈ snap.map (·.id) :=
    getD_id_mem_map snap j hjn
  have hpull : ∀ c ∈ CL.filter
      (fun c => !(c.id == (snap.getD j default).id)),
      ∃ c' ∈ st.db.clusters, c'.id = c.id ∧ c'.centroid = c.centroid ∧
        (c.id ∉ snap.map (·.id) → c' = c) := by
    intro c hc
    have hcCL : c ∈ CL := List.mem_of_mem_filter hc
    rcases hCL with h | h
    · subst h
      exact ⟨c, hcCL, rfl, rfl, fun _ => rfl⟩
    · subst h
      obtain ⟨c', hc', hce⟩ := List.mem_map.mp hcCL
      refine ⟨c', hc', by rw [← hce, hgid], by rw [← hce, hgcent], ?_⟩
      intro hnm
      by_cases hid : (c'.id == (snap.getD s default).id) = true
      · exfalso
        apply hnm
        rw [← hce]
        rw [hgid, beq_iff_eq.mp hid]
        exact hciidmem
      · have hid' : (c'.id == (snap.getD s default).id) = false := by
          cases hh : c'.id == (snap.getD s default).id
          · rfl
          · exact absurd hh hid
        rw [← hce]
        rw [hid']
        rfl
  have hvm : ∀ cid : Nat, cid ≠ (snap.getD j default).id →
      cid ≠ (snap.getD s default).id →
      validMemberVecs { st.db with
        faceEmbeddings := st.db.faceEmbeddings.map fun fe =>
          if fe.cluster_id == some (snap.getD j default).id
          then { fe with cluster_id := some (snap.getD s default).id } else fe,
        clusters := CL.filter
          (fun c => !(c.id == (snap.getD j default).id)) } cid
      = validMemberVecs st.db cid := by
    intro cid h1 h2
    exact (validMemberVecs_ext _ _ rfl rfl rfl cid).trans
      (validMemberVecs_reassign st.db _ _ cid h1 h2)
  refine ⟨hF1, hF2, ?_, ?_, ?_, ?_⟩
  · have hsubl : (CL.filter
        (fun c => !(c.id == (snap.getD j default).id))).map (·.id)
        |>.Sublist (st.db.clusters.map (·.id)) := by
      rcases hCL with h | h
      · subst h
        exact List.Sublist.map _ (List.filter_sublist _)
      · subst h
        have hmm : ((st.db.clusters.map (fun c =>
            if c.id == (snap.getD s default).id
            then { c with user_id := (snap.getD j default).user_id } else c)).map
              (·.id)) = st.db.clusters.map (·.id) := by
          rw [List.map_map]
          apply List.map_congr_left
          intro c _
          exact hgid c
        have hsub2 : ((((st.db.clusters.map (fun c =>
            if c.id == (snap.getD s default).id
            then { c with user_id := (snap.getD j default).user_id } else c)).filter
              (fun c => !(c.id == (snap.getD j default).id))).map
                (fun c : FaceClusterRow => c.id)).Sublist
            ((st.db.clusters.map (fun c =>
              if c.id == (snap.getD s default).id
              then { c with user_id := (snap.getD j default).user_id } else c)).map
                (fun c : FaceClusterRow => c.id))) :=
          List.Sublist.map _ (List.filter_sublist _)
        rw [hmm] at hsub2
        exact hsub2
    exact List.Nodup.sublist hsubl hN
  · intro c hc hnm
    obtain ⟨c', hc', hcid, hcent, hfull⟩ := hpull c hc
    have hc'c : c' = c := hfull hnm
    subst hc'c
    obtain ⟨hmem, hvmeq⟩ := hU c' hc' hnm
    refine ⟨hmem, ?_⟩
    rw [hvm c'.id (fun hh => hnm (hh ▸ hcjidmem))
      (fun hh => hnm (hh ▸ hciidmem))]
    exact hvmeq
  · intro i hi hsi him c hc hcid
    have hij : i ≠ j := by
      intro hh
      exact him (hh ▸ List.mem_append_right _ (List.mem_singleton_self _))
    have him' : i ∉ st.merged := fun hh => him (List.mem_append_left _ hh)
    obtain ⟨c', hc', hcid', hcent, _⟩ := hpull c hc
    have := hS i hi hsi him' c' hc' (by rw [hcid', hcid])
    rw [← hcent]
    exact this
  · intro i hi his him c hc hcid
    have hij : i ≠ j := by
      intro hh
      exact him (hh ▸ List.mem_append_right _ (List.mem_singleton_self _))
    have him' : i ∉ st.merged := fun hh => him (List.mem_append_left _ hh)
    obtain ⟨c', hc', hcid', hcent, _⟩ := hpull c hc
    have hold := hP i hi his him' c' hc' (by rw [hcid', hcid])
    have hvmeq := hvm c.id
      (by rw [hcid]; intro hh; exact hij (hinj i j hi hjn hh))
      (by rw [hcid]; intro hh; exact absurd (hinj i s hi hs hh) (by omega))
    rw [hvmeq]
    rw [hcid'] at hold
    refine ⟨fun hne hval => ?_, fun hemp => ?_⟩
    · rw [← hcent]
      exact hold.1 hne hval
    · rw [← hcent]
      exact hold.2 hemp

theorem mergeStepJ_centroidInv (sim : Vec → Vec → ℚ) (t : ℚ) (db : DB)
    (snap : List FaceClusterRow) (hinj : SnapInj snap) (s : Nat)
    (hs : s < snap.length) (st : MergeState) (j : Nat) (hsj : s < j)
    (hjn : j < snap.length) (hinv : MergeCentroidInv db snap s st) :
    MergeCentroidInv db snap s (mergeStepJ sim t snap s st j) := by
  by_cases hcj : st.merged.contains j
  · unfold mergeStepJ
    rw [if_pos hcj]
    exact hinv
  · have hcj' : st.merged.contains j = false := by
      cases hh : st.merged.contains j
      · rfl
      · exact absurd hh hcj
    by_cases hsim : t ≤ sim (snap.getD s default).centroid
        (snap.getD j default).centroid
    · rw [mergeStepJ_fired sim t snap s st j hcj' hsim]
      by_cases htr : (!((snap.getD j default).user_id.getD 0 == 0) &&
          (((st.db.clusters.find?
              (fun c => c.id == (snap.getD s default).id)).map
            (·.user_id)).getD none).getD 0 == 0) = true
      · rw [if_pos htr]
        exact merged_record_centroidInv db snap hinj s j hs hsj hjn st hinv
          _ (Or.inr rfl) _
      · rw [if_neg htr]
        exact merged_record_centroidInv db snap hinj s j hs hsj hjn st hinv
          _ (Or.inl rfl) _
    · unfold mergeStepJ
      rw [if_neg (by simpa using hcj')]
      dsimp only
      rw [if_neg hsim]
      exact hinv

theorem mergeStepJ_merged (sim : Vec → Vec → ℚ) (t : ℚ)
    (snap : List FaceClusterRow) (i : Nat) (st : MergeState) (j : Nat) :
    (mergeStepJ sim t snap i st j).merged = st.merged ∨
    (mergeStepJ sim t snap i st j).merged = st.merged ++ [j] := by
  unfold mergeStepJ
  dsimp only
  split_ifs
  · exact Or.inl rfl
  · exact Or.inr rfl
  · exact Or.inr rfl
  · exact Or.inl rfl

theorem MergeCentroidInv.bump {db : DB} {snap : List FaceClusterRow}
    {s : Nat} {st : MergeState} (h : MergeCentroidInv db snap s st)
    (hs : s ∈ st.merged) : MergeCentroidInv db snap (s + 1) st := by
  obtain ⟨h1, h2, h3, h4, h5, h6⟩ := h
  refine ⟨h1, h2, h3, h4, fun i hi hsi him => h5 i hi (by omega) him, ?_⟩
  intro i hi his him
  rcases Nat.lt_succ_iff_lt_or_eq.mp his with h' | h'
  · exact h6 i hi h' him
  · subst h'
    exact absurd hs him

theorem mergeStepI_centroidInv (sim : Vec → Vec → ℚ) (t : ℚ) (db : DB)
    (snap : List FaceClusterRow) (hinj : SnapInj snap)
    (husage : ∀ m ∈ db.media,
      (db.usages.filter (fun u => u.media_id == m.id)).length ≤ 1)
    (st : MergeState) (s : Nat) (hs : s < snap.length)
    (hinv : MergeCentroidInv db snap s st) :
    MergeCentroidInv db snap (s + 1) (mergeStepI sim t snap st s) := by
  unfold mergeStepI
  by_cases hcs : st.merged.contains s
  · rw [if_pos hcs]
    exact hinv.bump (by simpa using hcs)
  · have hcs' : st.merged.contains s = false := by
      cases hh : st.merged.contains s
      · rfl
      · exact absurd hh hcs
    rw [if_neg (by simpa using hcs')]
    dsimp only
    have hfold : MergeCentroidInv db snap s
        ((List.range' (s + 1) (snap.length - (s + 1))).foldl
          (mergeStepJ sim t snap s) st) ∧
        s ∉ ((List.range' (s + 1) (snap.length - (s + 1))).foldl
          (mergeStepJ sim t snap s) st).merged := by
      refine foldl_inv_mem
        (fun st' => MergeCentroidInv db snap s st' ∧ s ∉ st'.merged)
        (mergeStepJ sim t snap s) _ ?_ st ⟨hinv, by simpa using hcs'⟩
      intro st' j hj ⟨hinv', hsm'⟩
      have hjb := List.mem_range'_1.mp hj
      refine ⟨mergeStepJ_centroidInv sim t db snap hinj s hs st' j
        (by omega) (by omega) hinv', ?_⟩
      rcases mergeStepJ_merged sim t snap s st' j with h | h
      · rw [h]; exact hsm'
      · rw [h]
        intro hmem
        rcases List.mem_append.mp hmem with h' | h'
        · exact hsm' h'
        · rw [List.mem_singleton] at h'
          omega
    obtain ⟨hinv1, hsm1⟩ := hfold
    rw [if_neg (by simpa using hsm1)]
    obtain ⟨hF1, hF2, hN, hU, hS, hP⟩ := hinv1
    have husage1 : ∀ m ∈ (((List.range' (s + 1) (snap.length - (s + 1))).foldl
        (mergeStepJ sim t snap s) st).db).media,
        ((((List.range' (s + 1) (snap.length - (s + 1))).foldl
          (mergeStepJ sim t snap s) st).db).usages.filter
            (fun u => u.media_id == m.id)).length ≤ 1 := by
      intro m hm
      rw [hF1] at hm
      rw [hF2]
      exact husage m hm
    refine ⟨?_, ?_, ?_, ?_, ?_, ?_⟩
    · rw [update_cluster_centroid_media]
      exact hF1
    · rw [update_cluster_centroid_usages]
      exact hF2
    · rw [update_cluster_centroid_cluster_ids]
      exact hN
    · intro c hc hnm
      have hne : c.id ≠ (snap.getD s default).id := fun hh =>
        hnm (hh ▸ getD_id_mem_map snap s hs)
      have hc1 := update_cluster_centroid_other _ _ c hc hne
      obtain ⟨hmem, hvmeq⟩ := hU c hc1 hnm
      refine ⟨hmem, ?_⟩
      rw [validMemberVecs_update]
      exact hvmeq
    · intro i hi hsi him c hc hcid
      have hineq : i ≠ s := by omega
      have hne : c.id ≠ (snap.getD s default).id := by
        rw [hcid]
        intro hh
        exact hineq (hinj i s hi hs hh)
      have hc1 := update_cluster_centroid_other _ _ c hc hne
      exact hS i hi (by omega) him c hc1 hcid
    · intro i hi his him c hc hcid
      by_cases hieq : i = s
      · subst hieq
        constructor
        · intro hne hval
          rw [validMemberVecs_update] at hne hval ⊢
          have hspec := (update_cluster_centroid_spec _
            (snap.getD i default).id husage1).2.2
          rw [hcid] at hne hval ⊢
          have hspec2 := hspec hne hval
          rw [hspec2] at hc
          dsimp only at hc
          obtain ⟨c2, hc2, hc2e⟩ := List.mem_map.mp hc
          by_cases hid : (c2.id == (snap.getD i default).id) = true
          · rw [← hc2e]
            simp only [hid, if_true]
          · have hid' : (c2.id == (snap.getD i default).id) = false := by
              cases hh : c2.id == (snap.getD i default).id
              · rfl
              · exact absurd hh hid
            exfalso
            rw [← hc2e, hid'] at hcid
            simp only [Bool.false_eq_true, if_false] at hcid
            exact absurd (beq_iff_eq.mpr hcid) (by rw [hid']; decide)
        · intro hemp
          rw [validMemberVecs_update, hcid] at hemp
          have hspec := (update_cluster_centroid_spec _
            (snap.getD i default).id husage1).1 hemp
          rw [hspec] at hc
          exact hS i hi le_rfl him c hc hcid
      · have hilt : i < s := by omega
        have hne : c.id ≠ (snap.getD s default).id := by
          rw [hcid]
          intro hh
          exact hieq (hinj i s hi hs hh)
        have hc1 := update_cluster_centroid_other _ _ c hc hne
        have hold := hP i hi hilt him c hc1 hcid
        rw [validMemberVecs_update]
        exact hold

theorem merge_fold_centroidInv (sim : Vec → Vec → ℚ) (t : ℚ) (db : DB)
    (snap : List FaceClusterRow) (hinj : SnapInj snap)
    (husage : ∀ m ∈ db.media,
      (db.usages.filter (fun u => u.media_id == m.id)).length ≤ 1) :
    ∀ (m s : Nat), s + m ≤ snap.length → ∀ st : MergeState,
      MergeCentroidInv db snap s st →
      MergeCentroidInv db snap (s + m)
        ((List.range' s m).foldl (mergeStepI sim t snap) st) := by
  intro m
  induction m with
  | zero => intro s _ st h; exact h
  | succ m ih =>
    intro s hsm st h
    rw [List.range'_succ s m 1, List.foldl_cons]
    have hstep := mergeStepI_centroidInv sim t db snap hinj husage st s
      (by omega) h
    have := ih (s + 1) (by omega) (mergeStepI sim t snap st s) hstep
    have harith : s + 1 + m = s + (m + 1) := by omega
    rw [harith] at this
    exact this

theorem merge_pass_centroid_invariant (sim : Vec → Vec → ℚ) (db : DB)
    (event_id : Nat) (t : ℚ)
    (hclnodup : (db.clusters.map (·.id)).Nodup)
    (husage : ∀ m ∈ db.media,
      (db.usages.filter (fun u => u.media_id == m.id)).length ≤ 1)
    (h2 : 2 ≤ ((db.clusters.filter (fun c => c.event_id == some event_id)).filter
      (fun c => validate_embedding c.centroid)).length) :
    MergeCentroidInv db
      ((db.clusters.filter (fun c => c.event_id == some event_id)).filter
        (fun c => validate_embedding c.centroid))
      ((db.clusters.filter (fun c => c.event_id == some event_id)).filter
        (fun c => validate_embedding c.centroid)).length
      (merge_pass sim db event_id t) := by
  set snap := (db.clusters.filter (fun c => c.event_id == some event_id)).filter
    (fun c => validate_embedding c.centroid) with hsnap
  have hsubsnap : snap.Sublist db.clusters :=
    (List.filter_sublist _).trans (List.filter_sublist _)
  have hinj : SnapInj snap := by
    apply snapInj_of_nodup
    exact List.Nodup.sublist (List.Sublist.map _ hsubsnap) hclnodup
  have h0 : MergeCentroidInv db snap 0 ⟨db, [], []⟩ := by
    refine ⟨rfl, rfl, hclnodup, fun c hc _ => ⟨hc, rfl⟩, ?_, ?_⟩
    · intro i hi _ _ c hc hcid
      have hmem : snap.getD i default ∈ db.clusters := by
        apply hsubsnap.mem
        rw [List.getD_eq_getElem _ _ hi]
        exact List.getElem_mem _
      have := nodup_id_unique db.clusters hclnodup c (snap.getD i default)
        hc hmem hcid
      rw [this]
    · intro i _ hi0 _
      omega
  unfold merge_pass
  dsimp only
  rw [← hsnap]
  split_ifs with hlt1 hlt2
  · exfalso
    have hsl : snap.Sublist
        (db.clusters.filter (fun c => c.event_id == some event_id)) := by
      rw [hsnap]
      exact List.filter_sublist _
    have := List.length_le_of_sublist hsl
    omega
  · omega
  · rw [List.range_eq_range']
    have := merge_fold_centroidInv sim t db snap hinj husage snap.length 0
      (by omega) ⟨db, [], []⟩ h0
    simpa using this

/-- **C1**: the centroid invariant.  (1) The recomputation engine
`update_cluster_centroid`: with no valid event-scoped (non-profile)
member the database — the stored centroid included — is unchanged; with
at least one, and a finite mean, it rewrites exactly the cluster's
centroid to the arithmetic mean of those members (exactly, hence within
any floating-point tolerance).  (2) After the clusterer's
per-touched-cluster recomputation fold, every touched cluster holds that
mean, or its pre-fold centroid when it has no valid member.  (3) After a
merge pass, every surviving snapshot cluster holds the mean of its
current (post-reassignment) valid members — or its snapshot centroid when
it has none — and every cluster outside the snapshot is untouched, with
unchanged membership. -/
theorem centroid_mean_invariant (sim : Vec → Vec → ℚ) (db : DB)
    (event_id : Nat) (t : ℚ)
    (hclnodup : (db.clusters.map (·.id)).Nodup)
    (husage : ∀ m ∈ db.media,
      (db.usages.filter (fun u => u.media_id == m.id)).length ≤ 1) :
    (∀ cid : Nat,
      (validMemberVecs db cid = [] → update_cluster_centroid db cid = db) ∧
      (validMemberVecs db cid ≠ [] →
        validate_embedding (meanVec (validMemberVecs db cid)) = true →
        update_cluster_centroid db cid
          = { db with clusters := db.clusters.map fun c =>
              if c.id == cid
              then { c with centroid := meanVec (validMemberVecs db cid) }
              else c })) ∧
    (∀ ids : List Nat, ids.Nodup → ∀ cid ∈ ids,
      ∀ c ∈ (ids.foldl update_cluster_centroid db).clusters, c.id = cid →
        (validMemberVecs db cid ≠ [] →
          validate_embedding (meanVec (validMemberVecs db cid)) = true →
          c.centroid = meanVec (validMemberVecs db cid)) ∧
        (validMemberVecs db cid = [] →
          ∃ c0 ∈ db.clusters, c0.id = cid ∧ c.centroid = c0.centroid)) ∧
    (2 ≤ ((db.clusters.filter (fun c => c.event_id == some event_id)).filter
        (fun c => validate_embedding c.centroid)).length →
      (∀ i, i < ((db.clusters.filter
          (fun c => c.event_id == some event_id)).filter
            (fun c => validate_embedding c.centroid)).length →
        i ∉ (merge_pass sim db event_id t).merged →
        ∀ c ∈ (merge_pass sim db event_id t).db.clusters,
          c.id = (((db.clusters.filter
            (fun c => c.event_id == some event_id)).filter
              (fun c => validate_embedding c.centroid)).getD i default).id →
          (validMemberVecs (merge_pass sim db event_id t).db c.id ≠ [] →
            validate_embedding (meanVec
              (validMemberVecs (merge_pass sim db event_id t).db c.id)) = true →
            c.centroid
              = meanVec (validMemberVecs (merge_pass sim db event_id t).db c.id)) ∧
          (validMemberVecs (merge_pass sim db event_id t).db c.id = [] →
            c.centroid = (((db.clusters.filter
              (fun c => c.event_id == some event_id)).filter
                (fun c => validate_embedding c.centroid)).getD i default).centroid)) ∧
      (∀ c ∈ (merge_pass sim db event_id t).db.clusters,
        c.id ∉ ((db.clusters.filter
          (fun c => c.event_id == some event_id)).filter
            (fun c => validate_embedding c.centroid)).map (·.id) →
        c ∈ db.clusters ∧
          validMemberVecs (merge_pass sim db event_id t).db c.id
            = validMemberVecs db c.id)) := by
  refine ⟨?_, ?_, ?_⟩
  · intro cid
    have hspec := update_cluster_centroid_spec db cid husage
    exact ⟨hspec.1, hspec.2.2⟩
  · intro ids hnd cid hcid c hc hcidc
    exact updFold_spec ids db hnd husage cid hcid c hc hcidc
  · intro h2
    obtain ⟨_, _, _, hU, _, hP⟩ :=
      merge_pass_centroid_invariant sim db event_id t hclnodup husage h2
    exact ⟨fun i hi him c hc hcid => hP i hi hi him c hc hcid, hU⟩

/-- Witness for `centroid_mean_invariant` at `dbC1w`. -/
theorem centroid_mean_invariant_witness :
    ((dbC1w.clusters.map (·.id)).Nodup) ∧
    (∀ m ∈ dbC1w.media,
      (dbC1w.usages.filter (fun u => u.media_id == m.id)).length ≤ 1) ∧
    (validMemberVecs dbC1w 1 ≠ [] ∧
      validate_embedding (meanVec (validMemberVecs dbC1w 1)) = true) ∧
    update_cluster_centroid dbC1w 1
      = { dbC1w with clusters := dbC1w.clusters.map fun c =>
          if c.id == 1
          then { c with centroid := meanVec (validMemberVecs dbC1w 1) }
          else c } :=
  ⟨by decide, by decide, ⟨by decide, by decide⟩,
    ((centroid_mean_invariant cosineSim dbC1w 5 (mkRat 72 100)
        (by decide) (by decide)).1 1).2 (by decide) (by decide)⟩

